import Mathlib

/-!
Verification development for the genealogy-extractors research pipeline.

This file gives a shallow embedding, in Lean 4, of the parts of the
code base that the specification's testable properties talk about:

* the shared record scorer `calculate_match_score` and the fallback
  wrapper `extract_with_fallback` (extraction/base_extractor.py),
* the retry loop `RateLimiter.retry_with_backoff` (rate_limiter.py),
* the French location resolver `FrenchLocationResolver.find`
  (src/genealogy_extractors/location_resolver.py),
* the search log `ProcessedTracker` (src/genealogy_extractors/processed_tracker.py),
* the staging store `StagedFindings` (src/genealogy_extractors/staged_findings.py),
* the orchestrator `run_research` / `search_source` (research.py) over an
  abstract fetch oracle that fixes, per (person, source) pair, the outcome
  that `extract_from_source` (extract.py) would report.

Machine floats of the source are modelled as exact rationals; Python
strings as Lean strings (lowercasing is the ASCII one, which agrees with
Python on every input used here); Python dict lookups with `or` defaults
as explicit `Option` plus truthiness helpers; Python exceptions as sum
types.  Each definition cites the source location it translates.
-/

namespace GenealogyExtractors

/-! ## Python string primitives -/

/-- Does the char list start with the given pattern?  Building block for the
model of Python substring containment. -/
def leadsWith : List Char → List Char → Bool
  | _, [] => true
  | [], _ :: _ => false
  | a :: l, b :: m => a == b && leadsWith l m

/-- Does the char list contain the pattern as a contiguous subsequence? -/
def containsSeq : List Char → List Char → Bool
  | [], sub => sub.isEmpty
  | a :: l, sub => leadsWith (a :: l) sub || containsSeq l sub

/-- Model of Python `sub in s` for strings. -/
def strContains (s sub : String) : Bool := containsSeq s.data sub.data

/-- Model of Python `str.lower()` (character-wise; ASCII lowering, which
agrees with Python on every string in play). -/
def pyLower (s : String) : String := String.mk (s.data.map Char.toLower)

/-- Emptiness of a Python string. -/
def pyIsEmpty (s : String) : Bool := s.data.isEmpty

/-- Characters split on by Python `str.split()` with no argument. -/
def isPyWhitespace (c : Char) : Bool :=
  c == ' ' || c == '\t' || c == '\n' || c == '\r'

/-- Worker for `pySplit`: walk the characters accumulating the current
token (reversed); whitespace closes a token. -/
def pyWords (acc : List Char) : List Char → List String
  | [] => if acc.isEmpty then [] else [String.mk acc.reverse]
  | c :: rest =>
    if isPyWhitespace c then
      if acc.isEmpty then pyWords [] rest
      else String.mk acc.reverse :: pyWords [] rest
    else pyWords (c :: acc) rest

/-- Model of Python `str.split()` (split on whitespace runs, dropping
empty pieces). -/
def pySplit (s : String) : List String := pyWords [] s.data

/-- Model of Python `str.strip()` (drop leading and trailing
whitespace). -/
def pyStrip (s : String) : String :=
  String.mk (((s.data.dropWhile isPyWhitespace).reverse.dropWhile isPyWhitespace).reverse)

/-- Worker for `pyReplace`: fuel-indexed scan replacing every
occurrence of the (non-empty) pattern, left to right. -/
def replaceSeqAux (pat rep : List Char) : Nat → List Char → List Char
  | 0, l => l
  | _ + 1, [] => []
  | fuel + 1, c :: rest =>
    if leadsWith (c :: rest) pat then
      rep ++ replaceSeqAux pat rep fuel (rest.drop (pat.length - 1))
    else c :: replaceSeqAux pat rep fuel rest

/-- Model of Python `str.replace(pat, rep)` for a non-empty pattern
(every pattern used by the source is non-empty). -/
def pyReplace (s pat rep : String) : String :=
  if pat.data.isEmpty then s
  else String.mk (replaceSeqAux pat.data rep.data s.data.length s.data)

/-- Model of Python `str.isupper()` restricted to ASCII: at least one
letter, and every letter uppercase. -/
def pyIsUpper (s : String) : Bool :=
  s.data.any (fun c => c.isAlpha) && s.data.all (fun c => !c.isAlpha || c.isUpper)

/-! ## Levenshtein distance (base_extractor._levenshtein_ratio)

The source computes the distance with a two-row dynamic program
(base_extractor.py lines 211-237); the functions below reproduce that
row recurrence literally. -/

/-- Tail of one DP row: given the remaining chars of `s2`, the diagonal
entry `prev_row[j]`, the rest of the previous row starting at
`prev_row[j+1]`, and the last computed entry `curr_row[j]`, produce the
remaining entries of the current row. -/
def levRowAux (c1 : Char) : List Char → Nat → List Nat → Nat → List Nat
  | [], _, _, _ => []
  | _ :: _, _, [], _ => []
  | c2 :: rest, diag, above :: prest, left =>
      let cost := min (min (above + 1) (left + 1)) (diag + (if c1 == c2 then 0 else 1))
      cost :: levRowAux c1 rest above prest cost

/-- One full DP row `curr_row` for source row index `rowIdx` (the Python
loop body `curr_row = [i + 1]` followed by the inner loop). -/
def levRow (c1 : Char) (s2 : List Char) (prev : List Nat) (rowIdx : Nat) : List Nat :=
  match prev with
  | [] => []
  | p0 :: prest => (rowIdx + 1) :: levRowAux c1 s2 p0 prest (rowIdx + 1)

/-- Fold of `levRow` over the chars of `s1` (the outer Python loop). -/
def levRows (s2 : List Char) : List Char → List Nat → Nat → List Nat
  | [], prev, _ => prev
  | c1 :: rest, prev, i => levRows s2 rest (levRow c1 s2 prev i) (i + 1)

/-- Levenshtein distance, as computed by the source's DP
(`prev_row[len2]` is the last entry of the final row). -/
def levDistance (s1 s2 : List Char) : Nat :=
  (levRows s2 s1 (List.range (s2.length + 1)) 0).getLastD 0

/-- Model of `BaseRecordExtractor._levenshtein_ratio`
(base_extractor.py lines 211-237): similarity in [0,1], with the
source's early outs for empty and equal strings and its swap putting the
longer string first. -/
def levenshteinSim (s1 s2 : String) : ℚ :=
  if pyIsEmpty s1 || pyIsEmpty s2 then 0
  else if s1.data == s2.data then 1
  else
    let a := if s1.data.length < s2.data.length then s2 else s1
    let b := if s1.data.length < s2.data.length then s1 else s2
    let d := levDistance a.data b.data
    let maxLen := max a.data.length b.data.length
    1 - (d : ℚ) / (maxLen : ℚ)

/-- The float comparison `_levenshtein_ratio(s1, s2) > num / den`
carried out in exact integer arithmetic (`levenshteinSim_gt` below
proves it agrees with the rational comparison): the scorer's threshold
tests `> 0.8`, `> 0.7`, `> 0.6`, `> 0.5` are `simExceeds _ _ 8 10` and
so on. -/
def simExceeds (s1 s2 : String) (num den : Nat) : Bool :=
  if pyIsEmpty s1 || pyIsEmpty s2 then false
  else if s1.data == s2.data then decide (num < den)
  else
    let a := if s1.data.length < s2.data.length then s2 else s1
    let b := if s1.data.length < s2.data.length then s1 else s2
    let d := levDistance a.data b.data
    let maxLen := max a.data.length b.data.length
    decide ((num : Int) * maxLen < den * (maxLen - d))

/-! ## Python truthiness helpers -/

/-- Truthiness of an optional Python int (None and 0 are falsy). -/
def intTruthy : Option Int → Bool
  | none => false
  | some v => v != 0

/-- Model of Python `a or b` on optional ints. -/
def pyOrInt (a b : Option Int) : Option Int := if intTruthy a then a else b

/-- Model of Python `x or ''` on an optional string. -/
def strGet : Option String → String
  | none => ""
  | some s => s

/-- Truthiness of an optional Python string (None and '' are falsy). -/
def strTruthy : Option String → Bool
  | none => false
  | some s => !pyIsEmpty s

/-! ## Candidate records and search parameters (data model of section 3)

`PyRecord` carries exactly the keys that the scorer, the staging loop and
the fallback wrapper read from an extractor-produced dict.  A missing key
is `none`; `match_score` models `record.get("match_score", 0)` so an
absent score reads as 0.  The three `raw_*` flags model the truthiness of
`raw_data.get('father'/'mother'/'parents')`. -/

structure PyRecord where
  name : Option String := none
  birth_year : Option Int := none
  birth_place : Option String := none
  death_year : Option Int := none
  death_place : Option String := none
  url : Option String := none
  source : Option String := none
  match_score : ℚ := 0
  extraction_error : Option String := none
  raw_father : Bool := false
  raw_mother : Bool := false
  raw_parents : Bool := false
deriving Repr, DecidableEq

/-- Search parameters read by `calculate_match_score`
(base_extractor.py lines 136-183). -/
structure SearchParams where
  surname : Option String := none
  given_name : Option String := none
  birth_year : Option Int := none
  year_min : Option Int := none
  location : Option String := none
deriving Repr, DecidableEq

/-! ## The scoring model (base_extractor.calculate_match_score) -/

/-- Model of `BaseRecordExtractor._extract_surname`
(base_extractor.py lines 199-209): first UPPERCASE token of length > 1,
else the last whitespace token. -/
def extractSurname (name : String) : String :=
  if pyIsEmpty name then ""
  else
    let parts := pySplit name
    match parts.find? (fun part => pyIsUpper part && part.data.length > 1) with
    | some part => pyLower part
    | none => parts.getLastD ""

/-- Surname block of the scorer (base_extractor.py lines 138-146); inputs
are already lowercased by the caller. -/
def surnameScore (surname name : String) : Int :=
  if !pyIsEmpty surname && !pyIsEmpty name then
    if strContains name surname then 25
    else if simExceeds surname (extractSurname name) 8 10 then 15
    else if simExceeds surname name 5 10 then 5
    else 0
  else 0

/-- Given-name block of the scorer (base_extractor.py lines 148-159).
Note the source compares the query's first initial against
`name_parts[0][0]`, the first character of the FIRST whitespace token
only. -/
def givenScore (given name : String) : Int :=
  if !pyIsEmpty given && !pyIsEmpty name then
    if strContains name given then 15
    else
      match pySplit name with
      | [] => if simExceeds given name 7 10 then 10 else 0
      | p :: _ =>
        if given.data.headD ' ' == p.data.headD ' ' then 10
        else if simExceeds given name 7 10 then 10 else 0
  else 0

/-- Birth-year block of the scorer (base_extractor.py lines 161-175). -/
def yearScore (searchYear recordYear : Option Int) : Int :=
  if intTruthy searchYear && intTruthy recordYear then
    let d := (searchYear.getD 0 - recordYear.getD 0).natAbs
    if d == 0 then 20
    else if d ≤ 2 then 15
    else if d ≤ 5 then 10
    else if d ≤ 10 then 5
    else if d > 20 then -10
    else 0
  else 0

/-- Location block of the scorer (base_extractor.py lines 177-184). -/
def locationScore (searchLoc recordLoc : String) : Int :=
  if !pyIsEmpty searchLoc && !pyIsEmpty recordLoc then
    if strContains recordLoc searchLoc || strContains searchLoc recordLoc then 10
    else if simExceeds searchLoc recordLoc 6 10 then 5
    else 0
  else 0

/-- Rich-data bonus of the scorer (base_extractor.py lines 186-195). -/
def richnessScore (r : PyRecord) : Int :=
  (if intTruthy r.death_year then 2 else 0)
    + (if strTruthy r.death_place then 2 else 0)
    + (if r.raw_father || r.raw_mother || r.raw_parents then 4 else 0)
    + (if strTruthy r.url then 2 else 0)

/-- Model of `BaseRecordExtractor.calculate_match_score`
(base_extractor.py lines 118-197): start at 50, add the block
contributions in source order, clamp to [0, 100]. -/
def calculate_match_score (r : PyRecord) (p : SearchParams) : Int :=
  let name := pyLower (strGet r.name)
  let surname := pyLower (strGet p.surname)
  let given := pyLower (strGet p.given_name)
  let searchYear := pyOrInt p.birth_year p.year_min
  let searchLoc := pyLower (strGet p.location)
  let recordLoc := pyLower (strGet r.birth_place)
  let score := 50 + surnameScore surname name + givenScore given name
      + yearScore searchYear r.birth_year + locationScore searchLoc recordLoc
      + richnessScore r
  max 0 (min score 100)

/-- The given-name contribution exactly as claim C7 words it: the
first-initial bonus fires when the given name's first initial matches the
first initial of ANY whitespace token of the record name. -/
def givenScoreAnyToken (given name : String) : Int :=
  if !pyIsEmpty given && !pyIsEmpty name then
    if strContains name given then 15
    else if (pySplit name).any (fun tok => given.data.headD ' ' == tok.data.headD ' ') then 10
    else if simExceeds given name 7 10 then 10
    else 0
  else 0

/-- The given-name contribution as amended: the first-initial bonus fires
only when the given name's first initial matches the first initial of the
FIRST whitespace token of the record name. -/
def givenScoreFirstToken (given name : String) : Int :=
  if pyIsEmpty given || pyIsEmpty name then 0
  else if strContains name given then 15
  else if (match (pySplit name).head? with
           | some tok => given.data.headD ' ' == tok.data.headD ' '
           | none => false) then 10
  else if simExceeds given name 7 10 then 10
  else 0

/-! ## Rate limiter (rate_limiter.RateLimiter.retry_with_backoff)

An attempt either returns a payload or raises.  A raised
`requests.exceptions.HTTPError` carries an optional response status and
an optional Retry-After header; the header either parses as a float
number of seconds or is a date string on which `float()` raises.  Every
other exception is `PyError.other` with its message. -/

/-- Model of a Retry-After header value as seen through Python
`float(retry_after)`. -/
inductive RetryAfterHeader where
  | seconds (q : ℚ)
  | dateString
deriving Repr, DecidableEq

/-- Model of the exceptions the retry loop distinguishes. -/
inductive PyError where
  | http (status : Option Nat) (retryAfter : Option RetryAfterHeader) (msg : String)
  | other (msg : String)
deriving Repr, DecidableEq

/-- Outcome of one call of the wrapped function. -/
inductive CallOutcome where
  | ok (payload : String)
  | err (e : PyError)
deriving Repr, DecidableEq

/-- Model of the source's rate-limit-ish message test
(rate_limiter.py line 97): the lowercased message contains "429",
"too many" or "rate limit". -/
def rateLimitish (msg : String) : Bool :=
  strContains (pyLower msg) "429" || strContains (pyLower msg) "too many"
    || strContains (pyLower msg) "rate limit"

/-- Model of the retry loop body of `RateLimiter.retry_with_backoff`
(rate_limiter.py lines 58-108).  `calls k` is the outcome of the wrapped
function on attempt `k`; the result pairs the final outcome with the
list of sleep durations performed, in order.  `fuel` is the number of
attempts left and `attempt` the current 0-based attempt index. -/
def retryAux (minDelay backoff : ℚ) (calls : Nat → CallOutcome) :
    Nat → Nat → Option PyError → Except PyError String × List ℚ
  | 0, _, lastExc =>
      (Except.error (lastExc.getD (PyError.other "retries exhausted")), [])
  | fuel + 1, attempt, _ =>
      match calls attempt with
      | CallOutcome.ok v => (Except.ok v, [])
      | CallOutcome.err e =>
        match e with
        | PyError.http status retryAfter _ =>
          if status == some 429 then
            let wait :=
              match retryAfter with
              | some (RetryAfterHeader.seconds q) => q
              | some RetryAfterHeader.dateString => minDelay * backoff ^ (attempt + 1)
              | none => minDelay * backoff ^ (attempt + 1)
            let rest := retryAux minDelay backoff calls fuel (attempt + 1) (some e)
            (rest.1, wait :: rest.2)
          else (Except.error e, [])
        | PyError.other msg =>
          if rateLimitish msg then
            let wait := minDelay * backoff ^ (attempt + 1)
            let rest := retryAux minDelay backoff calls fuel (attempt + 1) (some e)
            (rest.1, wait :: rest.2)
          else (Except.error e, [])

/-- Model of `RateLimiter.retry_with_backoff` with the limiter's
parameters made explicit (defaults in the source: min_delay 1.0,
max_retries 5, backoff_factor 2.0). -/
def retry_with_backoff (minDelay backoff : ℚ) (maxRetries : Nat)
    (calls : Nat → CallOutcome) : Except PyError String × List ℚ :=
  retryAux minDelay backoff calls maxRetries 0 none

/-- A wrapped function that always fails with a rate-limit-ish generic
error, for the C6 counterexample and witness. -/
def c6calls : Nat → CallOutcome :=
  fun _ => CallOutcome.err (PyError.other "HTTP 429: rate limit exceeded")

/-! ## Location resolver (location_resolver.FrenchLocationResolver) -/

/-- Gazetteer entry with the fields `find` consults
(location_resolver.py lines 13-27); `ltype` renders the source's `type`
field, one of "region", "department", "city". -/
structure FrenchLocation where
  gid : Int
  name : String
  ltype : String
deriving Repr, DecidableEq

/-- Model of `FrenchLocationResolver.REGION_ALIASES`
(location_resolver.py lines 33-57). -/
def REGION_ALIASES : List (String × String) :=
  [("alsace", "Grand Est"), ("lorraine", "Grand Est"),
   ("champagne-ardenne", "Grand Est"), ("champagne", "Grand Est"),
   ("picardie", "Hauts-de-France"), ("picardy", "Hauts-de-France"),
   ("nord-pas-de-calais", "Hauts-de-France"),
   ("aquitaine", "Nouvelle-Aquitaine"), ("limousin", "Nouvelle-Aquitaine"),
   ("poitou-charentes", "Nouvelle-Aquitaine"),
   ("languedoc-roussillon", "Occitanie"), ("midi-pyrénées", "Occitanie"),
   ("midi-pyrenees", "Occitanie"),
   ("auvergne", "Auvergne-Rhône-Alpes"), ("rhône-alpes", "Auvergne-Rhône-Alpes"),
   ("rhone-alpes", "Auvergne-Rhône-Alpes"),
   ("bourgogne", "Bourgogne-Franche-Comté"), ("burgundy", "Bourgogne-Franche-Comté"),
   ("franche-comté", "Bourgogne-Franche-Comté"), ("franche-comte", "Bourgogne-Franche-Comté"),
   ("basse-normandie", "Normandie"), ("haute-normandie", "Normandie"),
   ("centre", "Centre-Val de Loire")]

/-- Dict lookup in `REGION_ALIASES`. -/
def aliasLookup (q : String) : Option String :=
  (REGION_ALIASES.find? (fun pr => pr.1 == q)).map (fun pr => pr.2)

/-- NFD decomposition followed by dropping combining marks, restricted
to the Latin letters that occur in the gazetteer and the alias table
(`_normalize`, location_resolver.py lines 78-80). -/
def stripAccent (c : Char) : Char :=
  match c with
  | 'à' | 'â' | 'ä' => 'a'
  | 'é' | 'è' | 'ê' | 'ë' => 'e'
  | 'î' | 'ï' => 'i'
  | 'ô' | 'ö' => 'o'
  | 'ù' | 'û' | 'ü' => 'u'
  | 'ç' => 'c'
  | _ => c

/-- The apostrophe character, used by two entries of the source's
article list. -/
def apos : Char := Char.ofNat 39

/-- The article list of `_normalize` (location_resolver.py line 84). -/
def ARTICLES : List String :=
  ["le ", "la ", "les ", "l".push apos, "de ", "du ", "des ", "d".push apos]

/-- The article-removal loop of `_normalize` (location_resolver.py lines
84-86): each article in turn is chopped off when the string currently
starts with it. -/
def dropArticles (s : String) : String :=
  ARTICLES.foldl (fun acc art =>
    if leadsWith acc.data art.data then String.mk (acc.data.drop art.data.length) else acc) s

/-- Model of `FrenchLocationResolver._normalize`
(location_resolver.py lines 75-89). -/
def normalizeLoc (text : String) : String :=
  let noAccents := String.mk (text.data.map stripAccent)
  let lowered := pyStrip (pyLower noAccents)
  let noArt := dropArticles lowered
  pyReplace (pyReplace noArt "-" " ") "  " " "

/-- The `type_filter` guard shared by tiers 2-5 of `find`
(location_resolver.py, `if type_filter and loc.type != type_filter:
continue`); an empty-string filter is falsy in Python and filters
nothing. -/
def passFilter (tf : Option String) (loc : FrenchLocation) : Bool :=
  if strTruthy tf then loc.ltype == tf.getD "" else true

/-- Tiers 2-5 of `FrenchLocationResolver.find` (location_resolver.py
lines 119-147): exact case-insensitive, normalised equality, normalised
starts-with, normalised containment; first hit per tier wins. -/
def findLocTiers (locations : List FrenchLocation) (queryLower queryNorm : String)
    (tf : Option String) : Option FrenchLocation :=
  match locations.find? (fun loc => passFilter tf loc && pyLower loc.name == queryLower) with
  | some loc => some loc
  | none =>
  match locations.find? (fun loc => passFilter tf loc && normalizeLoc loc.name == queryNorm) with
  | some loc => some loc
  | none =>
  match locations.find? (fun loc =>
      passFilter tf loc && leadsWith (normalizeLoc loc.name).data queryNorm.data) with
  | some loc => some loc
  | none => locations.find? (fun loc =>
      passFilter tf loc && strContains (normalizeLoc loc.name) queryNorm)

/-- Model of `FrenchLocationResolver.find` (location_resolver.py lines
91-147), with the loaded gazetteer passed explicitly.  The historical
alias tier (lines 113-117) scans the gazetteer for the aliased name with
NO type filter; when it misses, control falls through to the filtered
tiers. -/
def findLoc (locations : List FrenchLocation) (query : String) (tf : Option String) :
    Option FrenchLocation :=
  let queryLower := pyStrip (pyLower query)
  let queryNorm := normalizeLoc query
  match aliasLookup queryLower with
  | some aliased =>
    match locations.find? (fun loc => loc.name == aliased) with
    | some loc => some loc
    | none => findLocTiers locations queryLower queryNorm tf
  | none => findLocTiers locations queryLower queryNorm tf

/-! ## Search log (processed_tracker.ProcessedTracker) -/

/-- One `search_log` row's payload (processed_tracker.py lines 15-26);
the key `(person_id, source_name)` is held separately. -/
structure SearchLogRow where
  result_count : Int
  had_error : Bool
  error_message : Option String
deriving Repr, DecidableEq

/-- The search-log table: an association list keyed by
`(person_id, source_name)`, unique on the key. -/
structure TrackerState where
  log : List ((String × String) × SearchLogRow)
deriving Repr, DecidableEq

/-- Model of `ProcessedTracker.is_processed`
(processed_tracker.py lines 85-89). -/
def isProcessed (t : TrackerState) (pid src : String) : Bool :=
  t.log.any (fun e => e.1 == (pid, src))

/-- Model of `ProcessedTracker.mark_processed`
(processed_tracker.py lines 91-111): upsert on the unique key.  The
Python signature defaults `result_count=0, had_error=False,
error_message=None`; this model takes them explicitly and the call
sites pass the defaults exactly where the source omits them. -/
def markProcessed (t : TrackerState) (pid src : String) (rc : Int) (he : Bool)
    (em : Option String) : TrackerState :=
  if isProcessed t pid src then
    ⟨t.log.map (fun e => if e.1 == (pid, src) then ((pid, src), ⟨rc, he, em⟩) else e)⟩
  else
    ⟨t.log ++ [((pid, src), ⟨rc, he, em⟩)]⟩

/-- Model of `ProcessedTracker.get_unprocessed_sources`
(processed_tracker.py lines 113-118). -/
def getUnprocessed (t : TrackerState) (pid : String) (sources : List String) : List String :=
  sources.filter (fun s => !isProcessed t pid s)

/-- The row stored for a key, if any. -/
def lookupRow (t : TrackerState) (pid src : String) : Option SearchLogRow :=
  (t.log.find? (fun e => e.1 == (pid, src))).map (fun e => e.2)

/-! ## Staging store (staged_findings.StagedFindings) -/

/-- One `staged_findings` row with the columns the claims touch
(staged_findings.py lines 17-32; `staged_at`/`reviewed_at` timestamps
are dropped from the model). -/
structure StagedRow where
  id : Nat
  person_id : String
  person_name : String
  source_name : String
  source_url : Option String
  extracted_record : PyRecord
  match_score : ℚ
  status : String
  notes : Option String
deriving Repr, DecidableEq

/-- The `staged_findings` table, in insertion (autoincrement-id) order. -/
structure StagingState where
  rows : List StagedRow
deriving Repr, DecidableEq

/-- Model of `StagedFindings.add_finding` (staged_findings.py lines
74-107): INSERT with `status = 'pending'` and the next autoincrement
id. -/
def addFinding (s : StagingState) (pid pname srcName : String) (url : Option String)
    (rc : PyRecord) (score : ℚ) : StagingState :=
  ⟨s.rows ++ [{ id := s.rows.length + 1
                person_id := pid
                person_name := pname
                source_name := srcName
                source_url := url
                extracted_record := rc
                match_score := score
                status := "pending"
                notes := none }]⟩

/-- Model of `StagedFindings.approve` (staged_findings.py lines
126-134): UPDATE ... SET status = 'approved' WHERE id = fid, with no
guard on the current status. -/
def approveFinding (s : StagingState) (fid : Nat) (notes : Option String) : StagingState :=
  ⟨s.rows.map (fun r =>
    if r.id == fid then { r with status := "approved", notes := notes } else r)⟩

/-- Model of `StagedFindings.reject` (staged_findings.py lines 136-144):
UPDATE ... SET status = 'rejected' WHERE id = fid, with no guard on the
current status. -/
def rejectFinding (s : StagingState) (fid : Nat) (notes : Option String) : StagingState :=
  ⟨s.rows.map (fun r =>
    if r.id == fid then { r with status := "rejected", notes := notes } else r)⟩

/-! ## Extraction outcomes (extract.extract_from_source)

`extract_from_source` (extract.py lines 358-587) always returns a result
dict: a success dict with the extracted records, or an error dict for
`BotCheckDetected`, `DailyLimitReached` and any other exception raised
inside its try block.  `pyException` additionally models an exception
escaping `extract_from_source` itself, which `search_source`'s own
except-branch would catch. -/

inductive FetchOutcome where
  | records (rs : List PyRecord)
  | botCheck (msg : String)
  | dailyLimit (msg : String)
  | fetchError (msg : String)
  | pyException (msg : String)
deriving Repr, DecidableEq

/-- Is the outcome a bot check? -/
def FetchOutcome.isBot : FetchOutcome → Bool
  | FetchOutcome.botCheck _ => true
  | _ => false

/-- Is the outcome a daily limit? -/
def FetchOutcome.isDaily : FetchOutcome → Bool
  | FetchOutcome.dailyLimit _ => true
  | _ => false

/-- The result dict of `search_source` / `extract_from_source` as read
by `run_research` (research.py lines 59-107 and extract.py lines
513-587). -/
structure SourceResult where
  success : Bool
  records : List PyRecord
  error : Option String
  bot_check : Bool
  daily_limit : Bool
deriving Repr, DecidableEq

/-- The result dict `extract_from_source` returns for each outcome
(extract.py lines 513-518, 527-534, 542-549, 581-587). -/
def resultOf : FetchOutcome → SourceResult
  | FetchOutcome.records rcs => ⟨true, rcs, none, false, false⟩
  | FetchOutcome.botCheck m => ⟨false, [], some m, true, false⟩
  | FetchOutcome.dailyLimit m => ⟨false, [], some m, false, true⟩
  | FetchOutcome.fetchError m => ⟨false, [], some m, false, false⟩
  | FetchOutcome.pyException m => ⟨false, [], some m, false, false⟩

/-! ## Worker (research.search_source) -/

/-- Model of `search_source` (research.py lines 51-107), the per-thread
worker of the parallel path.  It returns the result dict and the updated
tracker and session daily-limit skip-set: on bot check nothing is
touched; on daily limit the source joins the skip-set; otherwise —
including the worker's own `except Exception` branch — the pair is
marked processed via `tracker.mark_processed(person_id, source_key)`,
i.e. with the Python defaults `result_count=0, had_error=False,
error_message=None`. -/
def searchSource (fetch : String → String → FetchOutcome) (pid src : String)
    (t : TrackerState) (skip : List String) :
    SourceResult × TrackerState × List String :=
  match fetch pid src with
  | FetchOutcome.botCheck m =>
      (⟨false, [], some m, true, false⟩, t, skip)
  | FetchOutcome.dailyLimit m =>
      (⟨false, [], some m, false, true⟩, t,
        if skip.contains src then skip else skip ++ [src])
  | FetchOutcome.records rcs =>
      (⟨true, rcs, none, false, false⟩, markProcessed t pid src 0 false none, skip)
  | FetchOutcome.fetchError m =>
      (⟨false, [], some m, false, false⟩, markProcessed t pid src 0 false none, skip)
  | FetchOutcome.pyException m =>
      (⟨false, [], some m, false, false⟩, markProcessed t pid src 0 false none, skip)

/-! ## Orchestrator (research.run_research)

The run is modelled over a fetch oracle `fetch : pid → source_key →
FetchOutcome` fixing, per (person, source) pair, the outcome that
`extract_from_source` reports for that pair's search (claim C9's "fixed
per-(person, source) fetch results"; extractors are pure, so for a fixed
payload the records are fixed too). -/

/-- A roster person with the fields `run_research` reads
(research.py lines 208-239 and api_client.person_to_search_params). -/
structure Person where
  id : String
  name_full : String
  name_surname : String
  name_given : String
  birth_year : Option Int
  estimated_birth_year : Option Int
deriving Repr, DecidableEq

/-- Transient state of one run: the durable tracker and staging store,
the session daily-limit skip-set `_daily_limit_sources`
(research.py line 48), and a trace of every `(person_id, source_key)`
pair for which `extract_from_source` was invoked. -/
structure RunState where
  tracker : TrackerState
  staging : StagingState
  skip : List String
  trace : List (String × String)
deriving Repr, DecidableEq

/-- Fresh run state over given durable stores: the skip-set is cleared
on restart and the trace starts empty. -/
def initState (t : TrackerState) (s : StagingState) : RunState :=
  ⟨t, s, [], []⟩

/-- Model of `birth_year = person.get("birth_year") or
person.get("estimated_birth_year")` (research.py line 224). -/
def personBirthYear (p : Person) : Option Int :=
  pyOrInt p.birth_year p.estimated_birth_year

/-- The ancient-person skip test (research.py lines 226-230): a truthy
resolved birth year below 1200 skips the person. -/
def tooAncient (p : Person) : Bool :=
  match personBirthYear p with
  | none => false
  | some y => y != 0 && decide (y < 1200)

/-- The candidate source list of one person (research.py lines 242-247):
unprocessed sources minus the session skip-set. -/
def candidateSources (rs : RunState) (p : Person) (sourceKeys : List String) : List String :=
  (getUnprocessed rs.tracker p.id sourceKeys).filter (fun s => !rs.skip.contains s)

/-- The staging loop for one source's records (research.py lines
292-307 and 345-361): each record whose `match_score` (default 0) is at
least `min_score` is inserted via `add_finding`. -/
def stageRecords (st : StagingState) (pid pname src : String) (minScore : ℚ)
    (rcs : List PyRecord) : StagingState :=
  rcs.foldl (fun acc r =>
    if minScore ≤ r.match_score then addFinding acc pid pname src r.url r r.match_score
    else acc) st

/-- One worker dispatch of the parallel path: run `search_source` on the
current shared state and record the attempt in the trace. -/
def parSearchStep (fetch : String → String → FetchOutcome) (pid : String)
    (rs : RunState) (src : String) : (String × SourceResult) × RunState :=
  let r := searchSource fetch pid src rs.tracker rs.skip
  ((src, r.1),
   { rs with tracker := r.2.1, skip := r.2.2, trace := rs.trace ++ [(pid, src)] })

/-- Model of `search_all_sources_parallel` (research.py lines 110-154):
every candidate source is searched by `search_source`; the shared
tracker and skip-set mutations of all workers are applied, and the
results are collected.  (The real thread pool completes workers in
arbitrary order; the model fixes submission order, which does not affect
the set of results or the final tracker/skip contents.) -/
def parSearchAll (fetch : String → String → FetchOutcome) (pid : String) :
    List String → RunState → List (String × SourceResult) × RunState
  | [], rs => ([], rs)
  | s :: rest, rs =>
    let step := parSearchStep fetch pid rs s
    let tail := parSearchAll fetch pid rest step.2
    (step.1 :: tail.1, tail.2)

/-- The result-consumption loop of the parallel branch (research.py
lines 272-309): unsuccessful results (bot check, daily limit, error) and
empty record lists stage nothing; otherwise the records are staged. -/
def stageParallelResults (results : List (String × SourceResult)) (pid pname : String)
    (minScore : ℚ) (st : StagingState) : StagingState :=
  results.foldl (fun acc pr =>
    if !pr.2.success then acc
    else if pr.2.records.isEmpty then acc
    else stageRecords acc pid pname pr.1 minScore pr.2.records) st

/-- One iteration of the sequential branch's per-source loop
(research.py lines 311-367): the fetch is attempted (traced); an
exception escaping `extract_from_source` is swallowed by the
per-source try without marking; bot check and daily limit `continue`
without marking and WITHOUT touching the session skip-set; every other
outcome is marked processed with the defaults, and successful non-empty
record lists are staged. -/
def seqSearchStep (fetch : String → String → FetchOutcome) (pid pname : String)
    (minScore : ℚ) (rs : RunState) (src : String) : RunState :=
  let rs1 := { rs with trace := rs.trace ++ [(pid, src)] }
  match fetch pid src with
  | FetchOutcome.pyException _ => rs1
  | o =>
    let result := resultOf o
    if result.bot_check then rs1
    else if result.daily_limit then rs1
    else
      let rs2 := { rs1 with tracker := markProcessed rs1.tracker pid src 0 false none }
      if !result.success then rs2
      else if result.records.isEmpty then rs2
      else { rs2 with staging := stageRecords rs2.staging pid pname src minScore result.records }

/-- Model of the per-person body of `run_research` (research.py lines
208-367): skip on empty surname, skip on ancient birth year, compute the
candidate sources, then either the parallel branch (parallel mode and
more than one candidate) or the sequential per-source loop. -/
def processPerson (fetch : String → String → FetchOutcome) (parallel : Bool) (minScore : ℚ)
    (sourceKeys : List String) (rs : RunState) (p : Person) : RunState :=
  if pyIsEmpty p.name_surname then rs
  else if tooAncient p then rs
  else
    let cand := candidateSources rs p sourceKeys
    if cand.isEmpty then rs
    else if parallel && decide (1 < cand.length) then
      let par := parSearchAll fetch p.id cand rs
      { par.2 with
        staging := stageParallelResults par.1 p.id p.name_full minScore par.2.staging }
    else
      cand.foldl (seqSearchStep fetch p.id p.name_full minScore) rs

/-- Model of `run_research` (research.py lines 157-384) over a fixed
roster: people are processed in iterator order. -/
def runResearch (fetch : String → String → FetchOutcome) (parallel : Bool) (minScore : ℚ)
    (sourceKeys : List String) (people : List Person) (rs : RunState) : RunState :=
  people.foldl (processPerson fetch parallel minScore sourceKeys) rs

/-! ## Extractor pipeline (base_extractor.extract_with_fallback and
extract.extract_from_source line 501) -/

/-- An extractor as the spec's contract describes it: `extract_records`
over the raw payload (an exception is `Except.error`), plus the
result-present indicator test `_has_results_indicator`. -/
structure Extractor where
  extract_records : String → SearchParams → Except String (List PyRecord)
  has_results_indicator : String → Bool

/-- Model of `BaseRecordExtractor._create_fallback_record`
(base_extractor.py lines 102-112). -/
def createFallbackRecord (sourceName url errorType : String) : List PyRecord :=
  [{ name := some errorType
     birth_year := none
     birth_place := none
     url := some url
     match_score := 50
     source := some sourceName
     extraction_error := some errorType }]

/-- Model of `BaseRecordExtractor.extract_with_fallback`
(base_extractor.py lines 54-80): zero records plus a result indicator
yields the PARSE_FAILED sentinel; an extractor exception yields the
PARSE_ERROR sentinel. -/
def extract_with_fallback (E : Extractor) (sourceName content : String)
    (params : SearchParams) (url : String) : List PyRecord :=
  match E.extract_records content params with
  | Except.ok rcs =>
      if rcs.length == 0 && E.has_results_indicator content then
        createFallbackRecord sourceName url "PARSE_FAILED"
      else rcs
  | Except.error _ => createFallbackRecord sourceName url "PARSE_ERROR"

/-- The outcome `extract_from_source` produces from an extractor on a
successfully fetched payload: line 501 of extract.py calls
`extract_records` DIRECTLY (never `extract_with_fallback`); an extractor
exception is caught by the generic handler (extract.py lines 551-587)
and becomes an error result. -/
def extractionOutcome (E : Extractor) (content : String) (params : SearchParams) :
    FetchOutcome :=
  match E.extract_records content params with
  | Except.ok rcs => FetchOutcome.records rcs
  | Except.error m => FetchOutcome.fetchError m

/-! ## Concrete instances used by counterexamples and witnesses -/

/-- A record with match score 90, above every threshold in play. -/
def rec90 : PyRecord :=
  { name := some "Marie DUBOIS", birth_year := some 1880, match_score := 90 }

/-- A second scored record. -/
def rec95 : PyRecord :=
  { name := some "Jean MARTIN", birth_year := some 1882, match_score := 95 }

/-- A roster person with a usable surname and birth year. -/
def personA : Person :=
  { id := "A", name_full := "Alice Martin", name_surname := "Martin",
    name_given := "Alice", birth_year := some 1900, estimated_birth_year := none }

/-- A second roster person, distinct id. -/
def personB : Person :=
  { id := "B", name_full := "Bob Martin", name_surname := "Martin",
    name_given := "Bob", birth_year := some 1902, estimated_birth_year := none }

/-- A run state with empty durable stores. -/
def emptyRun : RunState := initState ⟨[]⟩ ⟨[]⟩

/-- Fetch oracle for the C9 counterexample: source s1 reports a daily
limit for person A but returns a high-scoring record for person B;
source s2 always returns no records. -/
def c9fetch : String → String → FetchOutcome := fun pid src =>
  if pid == "A" && src == "s1" then FetchOutcome.dailyLimit "daily limit reached"
  else if pid == "B" && src == "s1" then FetchOutcome.records [rec90]
  else FetchOutcome.records []

/-- Fetch oracle whose daily-limit outcomes are per-source consistent:
s1 is at its daily limit for everyone, s2 returns a record for
everyone. -/
def c9fetchConsistent : String → String → FetchOutcome := fun _ src =>
  if src == "s1" then FetchOutcome.dailyLimit "daily limit reached"
  else FetchOutcome.records [rec90]

/-- An extractor that returns zero records although its payload carries
a result-present indicator (the claim C1 scenario). -/
def brokenExtractor : Extractor :=
  { extract_records := fun _ _ => Except.ok []
    has_results_indicator := fun _ => true }

/-- Is the outcome an exception escaping `extract_from_source`? -/
def FetchOutcome.isExc : FetchOutcome → Bool
  | FetchOutcome.pyException _ => true
  | _ => false

/-- The staging effect of one source's search on one person, common to
the parallel and the sequential branch: a successful search with a
non-empty record list stages its records; every other outcome stages
nothing. -/
def stageForSource (fetch : String → String → FetchOutcome) (pid pname : String)
    (minScore : ℚ) (st : StagingState) (src : String) : StagingState :=
  match fetch pid src with
  | FetchOutcome.records rcs =>
      if rcs.isEmpty then st else stageRecords st pid pname src minScore rcs
  | _ => st

/-- One staging store extends another by appended rows that are all
pending. -/
def PendingExtension (old new : StagingState) : Prop :=
  ∃ added, new.rows = old.rows ++ added ∧ ∀ r ∈ added, r.status = "pending"

/-- Search parameters with every field absent. -/
def noParams : SearchParams := {}

/-- A fetch oracle on which every source raises `BotCheckDetected` for
everyone. -/
def botFetch : String → String → FetchOutcome :=
  fun _ _ => FetchOutcome.botCheck "bot check detected"

/-- A staging store holding one finding, freshly added (hence pending). -/
def stagedOne : StagingState := addFinding ⟨[]⟩ "p1" "Person One" "geneanet" none rec90 90

/-- A fetch oracle on which source s1 is at its daily limit for
everyone and source s2 returns no records. -/
def c3fetch : String → String → FetchOutcome := fun _ src =>
  if src == "s1" then FetchOutcome.dailyLimit "daily limit reached"
  else FetchOutcome.records []

/-! ## Theorems -/

/-- C8: for every record and every query, the value returned by
`calculate_match_score` lies in the closed interval [0, 100] (the final
value is clamped), so every staged record scored by the shared scorer
has `0 ≤ match_score ≤ 100`. -/
theorem calculate_match_score_in_range (r : PyRecord) (p : SearchParams) :
    0 ≤ calculate_match_score r p ∧ calculate_match_score r p ≤ 100 := by
  simp only [calculate_match_score]
  exact ⟨le_max_left 0 _, max_le (by norm_num) (min_le_right _ _)⟩

/-- C8 witness: the range bound instantiated at a concrete record and
query. -/
theorem calculate_match_score_in_range_witness :
    0 ≤ calculate_match_score rec90 noParams ∧ calculate_match_score rec90 noParams ≤ 100 :=
  calculate_match_score_in_range rec90 noParams

/-- C7 counterexample: for query given name "marie" and record name
"jean maron", the claim's any-token first-initial rule yields +10 (token
"maron" starts with 'm'), but the code compares only the FIRST token
("jean"), and the Levenshtein similarity 0.5 is below 0.7, so the
code's given-name contribution is 0; accordingly the full scorer
returns the bare neutral 50 where the claim predicts 60. -/
theorem givenScore_any_token_counterexample :
    givenScore "marie" "jean maron" = 0
    ∧ givenScoreAnyToken "marie" "jean maron" = 10
    ∧ calculate_match_score { name := some "Jean Maron" } { given_name := some "Marie" } = 50 := by
  refine ⟨by decide, by decide, by decide⟩

/-- C7 amended: in `calculate_match_score`, the given-name contribution
is +15 if the query given name is a substring of the record name;
otherwise +10 if the given name's first initial matches the first
initial of the FIRST whitespace token of the record name; otherwise +10
if the Levenshtein ratio of the given name against the full record name
exceeds 0.7; otherwise 0. -/
theorem givenScore_eq_first_token (given name : String) :
    givenScore given name = givenScoreFirstToken given name := by
  unfold givenScore givenScoreFirstToken
  cases hg : pyIsEmpty given <;> cases hn : pyIsEmpty name <;> simp [hg, hn]
  cases hc : strContains name given <;> simp [hc]
  cases hs : pySplit name <;> simp [hs]

/-- The integer-arithmetic threshold test agrees with the rational
ratio comparison it models: `simExceeds s1 s2 num den` is exactly
`_levenshtein_ratio(s1, s2) > num/den`. -/
theorem levenshteinSim_gt (s1 s2 : String) (num den : Nat) (hden : 0 < den) :
    simExceeds s1 s2 num den = true
      ↔ levenshteinSim s1 s2 > (num : ℚ) / (den : ℚ) := by
  unfold simExceeds levenshteinSim
  by_cases h1 : (pyIsEmpty s1 || pyIsEmpty s2) = true
  · simp only [h1, if_true]
    constructor
    · intro h
      exact absurd h (by simp)
    · intro h
      exfalso
      have hnn : (0 : ℚ) ≤ (num : ℚ) / (den : ℚ) := by positivity
      rw [gt_iff_lt] at h
      linarith
  · simp only [h1, Bool.false_eq_true, if_false]
    have hs1 : pyIsEmpty s1 = false := by
      cases hz : pyIsEmpty s1
      · rfl
      · rw [hz] at h1; simp at h1
    by_cases h2 : (s1.data == s2.data) = true
    · simp only [h2, if_true, decide_eq_true_eq]
      rw [gt_iff_lt, div_lt_one (by positivity)]
      exact ⟨fun h => by exact_mod_cast h, fun h => by exact_mod_cast h⟩
    · simp only [h2, Bool.false_eq_true, if_false, decide_eq_true_eq]
      have hlen : 0 < (if s1.data.length < s2.data.length then s2 else s1).data.length := by
        by_cases hc : s1.data.length < s2.data.length
        · simp only [hc, if_true]
          omega
        · simp only [hc, if_false]
          unfold pyIsEmpty at hs1
          cases hd : s1.data
          · rw [hd] at hs1; simp at hs1
          · simp
      set a := if s1.data.length < s2.data.length then s2 else s1 with ha
      set b := if s1.data.length < s2.data.length then s1 else s2 with hb
      set d := levDistance a.data b.data with hdd
      set m := max a.data.length b.data.length with hm
      have hm0 : 0 < m := lt_of_lt_of_le hlen (le_max_left _ _)
      rw [gt_iff_lt,
        show (1 : ℚ) - (d : ℚ) / (m : ℚ) = ((m : ℚ) - (d : ℚ)) / (m : ℚ) by
          field_simp]
      rw [div_lt_div_iff₀ (by positivity) (by positivity)]
      constructor
      · intro h
        have h3 : ((num : ℚ)) * m < (den : ℚ) * ((m : ℚ) - d) := by exact_mod_cast h
        linarith
      · intro h
        have h3 : ((num : Int) : ℚ) * m < (den : ℚ) * (((m : Int) : ℚ) - ((d : Int) : ℚ)) := by
          push_cast
          push_cast at h
          linarith
        exact_mod_cast h3

/-- C6 counterexample: with the limiter's defaults (min_delay 1,
backoff_factor 2, max_retries 5) and a wrapped function that always
raises a rate-limit-ish generic error, the sleep performed after
attempt 0 is `1 * 2 ^ (0 + 1) = 2`, not `min_delay * backoff_factor ^ 0
= 1` as the claim states: the source computes
`backoff_factor ** (attempt + 1)`. -/
theorem retry_backoff_counterexample :
    (retry_with_backoff 1 2 5 c6calls).2.head? = some (1 * 2 ^ (0 + 1 : Nat))
    ∧ (1 : ℚ) * 2 ^ (0 + 1 : Nat) = 2
    ∧ (1 : ℚ) * 2 ^ (0 : Nat) = 1 := by
  refine ⟨rfl, by norm_num, by norm_num⟩

/-- The sleep performed after the rate-limit-ish attempt `attempt + k`
is `minDelay * backoff ^ (attempt + k + 1)`, provided every attempt up
to it failed rate-limit-ish. -/
theorem retryAux_get_sleep (minDelay backoff : ℚ) (calls : Nat → CallOutcome) :
    ∀ (fuel k attempt : Nat) (last : Option PyError), k < fuel →
      (∀ j, j ≤ k → ∃ m, calls (attempt + j) = CallOutcome.err (PyError.other m)
        ∧ rateLimitish m = true) →
      (retryAux minDelay backoff calls fuel attempt last).2.get? k
        = some (minDelay * backoff ^ (attempt + k + 1)) := by
  intro fuel
  induction fuel with
  | zero => intro k attempt last hk _; omega
  | succ n ih =>
    intro k attempt last hk h
    obtain ⟨m, hm, hr⟩ := h 0 (Nat.zero_le _)
    rw [Nat.add_zero] at hm
    unfold retryAux
    rw [hm]
    simp only [hr, if_true]
    cases k with
    | zero => simp
    | succ k' =>
      simp only [List.get?]
      have hstep := ih k' (attempt + 1) (some (PyError.other m)) (by omega)
        (fun j hj => by
          obtain ⟨m2, hm2, hr2⟩ := h (j + 1) (by omega)
          refine ⟨m2, ?_, hr2⟩
          rwa [show attempt + 1 + j = attempt + (j + 1) by omega])
      rw [hstep]
      rw [show attempt + 1 + k' + 1 = attempt + (k' + 1) + 1 by omega]

/-- C6 amended: in `retry_with_backoff`, when attempt number `attempt`
(counting from 0) fails with an error classified as rate-limit-ish
(message contains "429", "too many", or "rate limit") and no usable
Retry-After value is available, the sleep before the next attempt is
exactly `min_delay * backoff_factor ^ (attempt + 1)`; any generic error
not so classified is raised immediately without retrying and without
sleeping. -/
theorem retry_with_backoff_amended (minDelay backoff : ℚ) (maxRetries : Nat)
    (calls : Nat → CallOutcome) :
    (∀ k, k < maxRetries →
      (∀ j, j ≤ k → ∃ m, calls j = CallOutcome.err (PyError.other m)
        ∧ rateLimitish m = true) →
      (retry_with_backoff minDelay backoff maxRetries calls).2.get? k
        = some (minDelay * backoff ^ (k + 1)))
    ∧ (∀ m, 0 < maxRetries → calls 0 = CallOutcome.err (PyError.other m) →
      rateLimitish m = false →
      retry_with_backoff minDelay backoff maxRetries calls
        = (Except.error (PyError.other m), [])) := by
  constructor
  · intro k hk h
    have hs := retryAux_get_sleep minDelay backoff calls maxRetries k 0 none hk
      (fun j hj => by simpa using h j hj)
    simpa [retry_with_backoff] using hs
  · intro m hpos h0 hrl
    obtain ⟨n, rfl⟩ : ∃ n, maxRetries = n + 1 := ⟨maxRetries - 1, by omega⟩
    unfold retry_with_backoff retryAux
    rw [h0]
    simp [hrl]

/-- C6 witness: the amended theorem applied at the defaults — the first
sleep is 2 seconds, and a non-classified error is raised at once with no
sleeps. -/
theorem retry_with_backoff_amended_witness :
    (retry_with_backoff 1 2 5 c6calls).2.get? 0 = some 2
    ∧ retry_with_backoff 1 2 5 (fun _ => CallOutcome.err (PyError.other "boom"))
      = (Except.error (PyError.other "boom"), []) := by
  constructor
  · have h := (retry_with_backoff_amended 1 2 5 c6calls).1 0 (by norm_num)
      (fun j hj => ⟨"HTTP 429: rate limit exceeded", rfl, by decide⟩)
    rw [h]
    norm_num
  · exact (retry_with_backoff_amended 1 2 5 (fun _ => CallOutcome.err (PyError.other "boom"))).2
      "boom" (by norm_num) rfl (by decide)

/-- The first component of a conjunctive find? predicate holds of a
found element. -/
theorem find?_and_left {α : Type} (p q : α → Bool) (l : List α) (x : α)
    (h : l.find? (fun a => p a && q a) = some x) : p x = true := by
  have hx := List.find?_some h
  simp only [Bool.and_eq_true] at hx
  exact hx.1

/-- A truthy type filter that passes forces the entry's type. -/
theorem passFilter_forces (t : String) (loc : FrenchLocation)
    (ht : strTruthy (some t) = true) (h : passFilter (some t) loc = true) :
    loc.ltype = t := by
  simp [passFilter, ht] at h
  exact h

/-- Every hit of the filtered tiers has the filtered type. -/
theorem findLocTiers_honours_filter (locations : List FrenchLocation)
    (ql qn t : String) (loc : FrenchLocation) (ht : strTruthy (some t) = true)
    (h : findLocTiers locations ql qn (some t) = some loc) : loc.ltype = t := by
  unfold findLocTiers at h
  split at h
  · rename_i l1 heq
    cases h
    exact passFilter_forces t loc ht (find?_and_left _ _ _ _ heq)
  · split at h
    · rename_i l1 heq
      cases h
      exact passFilter_forces t loc ht (find?_and_left _ _ _ _ heq)
    · split at h
      · rename_i l1 heq
        cases h
        exact passFilter_forces t loc ht (find?_and_left _ _ _ _ heq)
      · exact passFilter_forces t loc ht (find?_and_left _ _ _ _ h)

/-- C10: in `FrenchLocationResolver.find`, the historical-region alias
tier ignores the `type_filter` argument — whenever the lowercased,
stripped query is a key of REGION_ALIASES and the aliased current-region
name is present in the loaded gazetteer, `find` returns that entry for
EVERY filter value (including 'city' and 'department') — whereas every
later tier (exact, normalised, starts-with, contains) honours a truthy
filter. -/
theorem findLoc_alias_ignores_type_filter (locations : List FrenchLocation)
    (query : String) (tf : Option String) (aliased : String)
    (hq : aliasLookup (pyStrip (pyLower query)) = some aliased)
    (hex : (locations.find? (fun loc => loc.name == aliased)).isSome = true) :
    findLoc locations query tf = locations.find? (fun loc => loc.name == aliased)
    ∧ ∀ (locs2 : List FrenchLocation) (ql qn t : String) (loc : FrenchLocation),
        strTruthy (some t) = true → findLocTiers locs2 ql qn (some t) = some loc →
        loc.ltype = t := by
  constructor
  · obtain ⟨l1, hl1⟩ := Option.isSome_iff_exists.mp hex
    simp only [findLoc, hq, hl1]
  · intro locs2 ql qn t loc ht hfind
    exact findLocTiers_honours_filter locs2 ql qn t loc ht hfind

/-- C10 witness: on a two-entry gazetteer, the query "Alsace" with
type filter 'city' still returns the "Grand Est" region entry. -/
theorem findLoc_alias_witness :
    findLoc [⟨1, "Grand Est", "region"⟩, ⟨2, "Paris", "city"⟩] "Alsace" (some "city")
      = some ⟨1, "Grand Est", "region"⟩ := by
  have h := (findLoc_alias_ignores_type_filter
      [⟨1, "Grand Est", "region"⟩, ⟨2, "Paris", "city"⟩]
      "Alsace" (some "city") "Grand Est" (by decide) (by decide)).1
  rw [h]
  decide

/-- After the upsert's UPDATE arm, the key's row is the new row. -/
theorem find?_map_upsert (k : String × String) (row : SearchLogRow) :
    ∀ l : List ((String × String) × SearchLogRow), l.any (fun e => e.1 == k) = true →
      (l.map (fun e => if e.1 == k then (k, row) else e)).find? (fun e => e.1 == k)
        = some (k, row) := by
  intro l
  induction l with
  | nil => intro h; simp at h
  | cons e l ih =>
    intro h
    by_cases he : (e.1 == k) = true
    · simp [he, List.find?]
    · have he' : (e.1 == k) = false := by
        cases hx : e.1 == k
        · rfl
        · exact absurd hx he
      simp only [List.map, he', if_false, Bool.false_eq_true]
      rw [List.find?_cons_of_neg _ (by simp [he'])]
      apply ih
      simpa [he'] using h

/-- After the upsert's INSERT arm, the key's row is the new row. -/
theorem find?_append_missing (k : String × String) (row : SearchLogRow) :
    ∀ l : List ((String × String) × SearchLogRow), l.any (fun e => e.1 == k) = false →
      (l ++ [(k, row)]).find? (fun e => e.1 == k) = some (k, row) := by
  intro l
  induction l with
  | nil => simp [List.find?]
  | cons e l ih =>
    intro h
    have he : (e.1 == k) = false := by
      cases hx : e.1 == k
      · rfl
      · rw [List.any_cons, hx] at h; simp at h
    rw [List.cons_append, List.find?_cons_of_neg _ (by simp [he])]
    apply ih
    rw [List.any_cons, he] at h
    simpa using h

/-- `mark_processed` stores exactly the row it was called with. -/
theorem lookupRow_markProcessed (t : TrackerState) (pid src : String) (rc : Int)
    (he : Bool) (em : Option String) :
    lookupRow (markProcessed t pid src rc he em) pid src = some ⟨rc, he, em⟩ := by
  unfold markProcessed isProcessed lookupRow
  cases hx : t.log.any (fun e => e.1 == (pid, src)) with
  | true =>
      simp only [hx, if_true]
      rw [find?_map_upsert _ _ t.log hx]
      rfl
  | false =>
      simp only [hx, Bool.false_eq_true, if_false]
      rw [find?_append_missing _ _ t.log hx]
      rfl

/-- C5 counterexample: a search that completes without exception with
TWO extracted records writes the search-log row
`{result_count := 0, had_error := false, error_message := none}` (the
claim demands `result_count = 2`), and a search that raises a generic
exception writes exactly the same row (the claim demands
`had_error = true` with the message): `search_source` calls
`mark_processed(person_id, source_key)` with the defaults in both
paths. -/
theorem searchSource_defaults_counterexample :
    (searchSource (fun _ _ => FetchOutcome.records [rec90, rec95]) "p1" "geneanet" ⟨[]⟩ []).2.1.log
      = [(("p1", "geneanet"), ⟨0, false, none⟩)]
    ∧ (searchSource (fun _ _ => FetchOutcome.pyException "boom") "p1" "geneanet" ⟨[]⟩ []).2.1.log
      = [(("p1", "geneanet"), ⟨0, false, none⟩)] := by
  refine ⟨by decide, by decide⟩

/-- C5 amended: whenever the worker's search of (pid, source) is neither
a bot check nor a daily limit — both when it completes without exception
and when it raises — `search_source` calls `mark_processed` with only
`(pid, source)`, so the search-log row holds the defaults
`result_count = 0`, `had_error = false`, `error_message = none`,
regardless of the number of extracted records and of any error
message. -/
theorem searchSource_marks_defaults (fetch : String → String → FetchOutcome)
    (pid src : String) (t : TrackerState) (skip : List String)
    (hb : (fetch pid src).isBot = false) (hd : (fetch pid src).isDaily = false) :
    lookupRow (searchSource fetch pid src t skip).2.1 pid src = some ⟨0, false, none⟩ := by
  unfold searchSource
  cases hf : fetch pid src with
  | botCheck m => rw [hf] at hb; simp [FetchOutcome.isBot] at hb
  | dailyLimit m => rw [hf] at hd; simp [FetchOutcome.isDaily] at hd
  | records rcs => exact lookupRow_markProcessed t pid src 0 false none
  | fetchError m => exact lookupRow_markProcessed t pid src 0 false none
  | pyException m => exact lookupRow_markProcessed t pid src 0 false none

/-- C5 witness: the amended theorem applied to a successful two-record
search on an empty tracker. -/
theorem searchSource_marks_defaults_witness :
    lookupRow (searchSource (fun _ _ => FetchOutcome.records [rec90, rec95])
        "p1" "geneanet" ⟨[]⟩ []).2.1 "p1" "geneanet" = some ⟨0, false, none⟩ :=
  searchSource_marks_defaults (fun _ _ => FetchOutcome.records [rec90, rec95])
    "p1" "geneanet" ⟨[]⟩ [] rfl rfl

/-- C4 counterexample: a freshly added row is pending; `approve` makes
it approved (terminal); a later `reject` on the SAME row overwrites the
terminal status with "rejected" — the staging store's operations do
rewrite terminal rows, because approve/reject UPDATE by id with no
status guard. -/
theorem staged_status_counterexample :
    stagedOne.rows.map (fun r => r.status) = ["pending"]
    ∧ (approveFinding stagedOne 1 none).rows.map (fun r => r.status) = ["approved"]
    ∧ (rejectFinding (approveFinding stagedOne 1 none) 1 none).rows.map (fun r => r.status)
      = ["rejected"] := by
  refine ⟨by decide, by decide, by decide⟩

/-- The worker's result dict is determined by the fetch outcome alone. -/
theorem searchSource_result (fetch : String → String → FetchOutcome) (pid src : String)
    (t : TrackerState) (skip : List String) :
    (searchSource fetch pid src t skip).1 = resultOf (fetch pid src) := by
  unfold searchSource resultOf
  cases fetch pid src <;> rfl

/-- The worker's tracker effect: marked with defaults unless bot check
or daily limit. -/
theorem searchSource_tracker (fetch : String → String → FetchOutcome) (pid src : String)
    (t : TrackerState) (skip : List String) :
    (searchSource fetch pid src t skip).2.1
      = if (fetch pid src).isBot || (fetch pid src).isDaily then t
        else markProcessed t pid src 0 false none := by
  unfold searchSource
  cases h : fetch pid src <;> simp [FetchOutcome.isBot, FetchOutcome.isDaily]

/-- The worker's skip-set effect: the source joins the session skip-set
exactly on a daily limit. -/
theorem searchSource_skip (fetch : String → String → FetchOutcome) (pid src : String)
    (t : TrackerState) (skip : List String) :
    (searchSource fetch pid src t skip).2.2
      = if (fetch pid src).isDaily then (if skip.contains src then skip else skip ++ [src])
        else skip := by
  unfold searchSource
  cases h : fetch pid src <;> simp [FetchOutcome.isDaily]

/-- The upsert's UPDATE arm does not change which keys are present. -/
theorem any_map_upsert (k kk : String × String) (row : SearchLogRow) :
    ∀ l : List ((String × String) × SearchLogRow),
      (l.map (fun e => if e.1 == k then (k, row) else e)).any (fun e => e.1 == kk)
        = l.any (fun e => e.1 == kk) := by
  intro l
  induction l with
  | nil => rfl
  | cons e l ih =>
    simp only [List.map_cons, List.any_cons, ih]
    by_cases he : (e.1 == k) = true
    · have hek : e.1 = k := eq_of_beq he
      simp [he, hek]
    · simp [he]

/-- The effect of `mark_processed` on `is_processed`: the marked key
becomes present, everything else is unchanged. -/
theorem isProcessed_markProcessed (t : TrackerState) (q s pid src : String)
    (rc : Int) (he : Bool) (em : Option String) :
    isProcessed (markProcessed t q s rc he em) pid src
      = (isProcessed t pid src || ((q, s) == (pid, src))) := by
  unfold markProcessed isProcessed
  cases hx : t.log.any (fun e => e.1 == (q, s)) with
  | true =>
      simp only [hx, if_true]
      rw [any_map_upsert]
      by_cases hk : ((q, s) == (pid, src)) = true
      · have hqs : (q, s) = (pid, src) := eq_of_beq hk
        rw [hqs] at hx
        simp [hx, hk]
      · simp [hk]
  | false =>
      simp only [hx, Bool.false_eq_true, if_false]
      rw [List.any_append]
      simp [List.any_cons]

/-- The worker's tracker effect on `is_processed`, fully characterised:
the pair (pid, src) is newly marked exactly when the worker handled that
very pair with an outcome that is neither bot check nor daily limit. -/
theorem isProcessed_searchSource (fetch : String → String → FetchOutcome) (qid s : String)
    (t : TrackerState) (skip : List String) (pid src : String) :
    isProcessed (searchSource fetch qid s t skip).2.1 pid src
      = (isProcessed t pid src
         || (((qid, s) == (pid, src))
              && !(fetch qid s).isBot && !(fetch qid s).isDaily)) := by
  rw [searchSource_tracker]
  cases hb : (fetch qid s).isBot <;> cases hd : (fetch qid s).isDaily <;>
    simp [hb, hd, isProcessed_markProcessed]

/-- Worker dispatch leaves the staging store untouched. -/
theorem parSearchAll_staging (fetch : String → String → FetchOutcome) (pid : String) :
    ∀ (l : List String) (rs : RunState),
      (parSearchAll fetch pid l rs).2.staging = rs.staging := by
  intro l
  induction l with
  | nil => intro rs; rfl
  | cons s l ih => intro rs; simp [parSearchAll, parSearchStep, ih]

/-- The collected results of the parallel dispatch are determined by the
fetch outcomes. -/
theorem parSearchAll_results (fetch : String → String → FetchOutcome) (pid : String) :
    ∀ (l : List String) (rs : RunState),
      (parSearchAll fetch pid l rs).1 = l.map (fun s => (s, resultOf (fetch pid s))) := by
  intro l
  induction l with
  | nil => intro rs; rfl
  | cons s l ih =>
      intro rs
      simp [parSearchAll, parSearchStep, ih, searchSource_result]

/-- Tracker effect of the parallel dispatch, characterised per key. -/
theorem isProcessed_parSearchAll (fetch : String → String → FetchOutcome) (qid : String)
    (pid src : String) :
    ∀ (l : List String) (rs : RunState),
      isProcessed (parSearchAll fetch qid l rs).2.tracker pid src
        = (isProcessed rs.tracker pid src
           || l.any (fun s => ((qid, s) == (pid, src))
                && !(fetch qid s).isBot && !(fetch qid s).isDaily)) := by
  intro l
  induction l with
  | nil => intro rs; simp [parSearchAll]
  | cons s l ih =>
      intro rs
      unfold parSearchAll parSearchStep
      rw [ih]
      simp only [List.any_cons]
      rw [isProcessed_searchSource]
      simp [Bool.or_assoc]

/-- Trace effect of the parallel dispatch: every candidate is
attempted, in order. -/
theorem trace_parSearchAll (fetch : String → String → FetchOutcome) (qid : String) :
    ∀ (l : List String) (rs : RunState),
      (parSearchAll fetch qid l rs).2.trace
        = rs.trace ++ l.map (fun s => (qid, s)) := by
  intro l
  induction l with
  | nil => intro rs; simp [parSearchAll]
  | cons s l ih =>
      intro rs
      simp [parSearchAll, parSearchStep, ih]

/-- One-step unfolding of the parallel dispatch. -/
theorem parSearchAll_cons (fetch : String → String → FetchOutcome) (qid s : String)
    (l : List String) (rs : RunState) :
    parSearchAll fetch qid (s :: l) rs
      = ((parSearchStep fetch qid rs s).1
            :: (parSearchAll fetch qid l (parSearchStep fetch qid rs s).2).1,
         (parSearchAll fetch qid l (parSearchStep fetch qid rs s).2).2) := rfl

/-- The skip-set after one worker dispatch. -/
theorem parSearchStep_skip (fetch : String → String → FetchOutcome) (qid : String)
    (rs : RunState) (s : String) :
    (parSearchStep fetch qid rs s).2.skip
      = (searchSource fetch qid s rs.tracker rs.skip).2.2 := rfl

/-- Skip-set growth of the parallel dispatch: existing members stay. -/
theorem skip_mono_parSearchAll (fetch : String → String → FetchOutcome) (qid : String)
    (x : String) :
    ∀ (l : List String) (rs : RunState), x ∈ rs.skip →
      x ∈ (parSearchAll fetch qid l rs).2.skip := by
  intro l
  induction l with
  | nil => intro rs hx; exact hx
  | cons s l ih =>
      intro rs hx
      rw [parSearchAll_cons]
      apply ih
      rw [parSearchStep_skip, searchSource_skip]
      by_cases hd : (fetch qid s).isDaily = true
      · simp only [hd, if_true]
        by_cases hc : rs.skip.contains s = true
        · have hs : s ∈ rs.skip := by simpa using hc
          simpa [hc, hs] using hx
        · simp only [hc, Bool.false_eq_true, if_false]
          exact List.mem_append_left _ hx
      · have hd2 : (fetch qid s).isDaily = false := by
          cases hz : (fetch qid s).isDaily
          · rfl
          · exact absurd hz hd
        simpa [hd2] using hx

/-- Skip-set growth of the parallel dispatch: any new member is a
source whose fetch reported a daily limit. -/
theorem mem_skip_parSearchAll (fetch : String → String → FetchOutcome) (qid : String)
    (x : String) :
    ∀ (l : List String) (rs : RunState),
      x ∈ (parSearchAll fetch qid l rs).2.skip →
      x ∈ rs.skip ∨ (fetch qid x).isDaily = true := by
  intro l
  induction l with
  | nil => intro rs hx; exact Or.inl hx
  | cons s l ih =>
      intro rs hx
      rw [parSearchAll_cons] at hx
      rcases ih _ hx with hmem | hdaily
      · rw [parSearchStep_skip, searchSource_skip] at hmem
        by_cases hd : (fetch qid s).isDaily = true
        · simp only [hd, if_true] at hmem
          by_cases hc : rs.skip.contains s = true
          · simp only [hc, if_true] at hmem
            exact Or.inl hmem
          · simp only [hc, Bool.false_eq_true, if_false] at hmem
            rcases List.mem_append.mp hmem with h | h
            · exact Or.inl h
            · simp at h
              subst h
              exact Or.inr hd
        · have hd2 : (fetch qid s).isDaily = false := by
            cases hz : (fetch qid s).isDaily
            · rfl
            · exact absurd hz hd
          simp only [hd2, Bool.false_eq_true, if_false] at hmem
          exact Or.inl hmem
      · exact Or.inr hdaily

/-- A candidate whose fetch reports a daily limit joins the skip-set
during the parallel dispatch. -/
theorem skip_added_parSearchAll (fetch : String → String → FetchOutcome) (qid : String)
    (x : String) :
    ∀ (l : List String) (rs : RunState), x ∈ l → (fetch qid x).isDaily = true →
      x ∈ (parSearchAll fetch qid l rs).2.skip := by
  intro l
  induction l with
  | nil => intro rs hx; simp at hx
  | cons s l ih =>
      intro rs hx hd
      rcases List.mem_cons.mp hx with rfl | hmem
      · rw [parSearchAll_cons]
        apply skip_mono_parSearchAll
        rw [parSearchStep_skip, searchSource_skip]
        simp only [hd, if_true]
        by_cases hc : rs.skip.contains x = true
        · simp only [hc, if_true]
          simpa using hc
        · simp only [hc, Bool.false_eq_true, if_false]
          exact List.mem_append_right _ (by simp)
      · rw [parSearchAll_cons]
        exact ih _ hmem hd

/-- The sequential per-source step never touches the session
skip-set. -/
theorem skip_seqSearchStep (fetch : String → String → FetchOutcome) (pid pname : String)
    (ms : ℚ) (rs : RunState) (src : String) :
    (seqSearchStep fetch pid pname ms rs src).skip = rs.skip := by
  unfold seqSearchStep
  cases h : fetch pid src with
  | records rcs =>
      by_cases he : rcs.isEmpty = true
      · simp [resultOf, he]
      · simp [resultOf, he]
  | botCheck m => rfl
  | dailyLimit m => rfl
  | fetchError m => rfl
  | pyException m => rfl

/-- The sequential per-source step appends exactly one trace entry. -/
theorem trace_seqSearchStep (fetch : String → String → FetchOutcome) (pid pname : String)
    (ms : ℚ) (rs : RunState) (src : String) :
    (seqSearchStep fetch pid pname ms rs src).trace = rs.trace ++ [(pid, src)] := by
  unfold seqSearchStep
  cases h : fetch pid src with
  | records rcs =>
      by_cases he : rcs.isEmpty = true
      · simp [resultOf, he]
      · simp [resultOf, he]
  | botCheck m => rfl
  | dailyLimit m => rfl
  | fetchError m => rfl
  | pyException m => rfl

/-- The sequential per-source step's staging effect is
`stageForSource`. -/
theorem staging_seqSearchStep (fetch : String → String → FetchOutcome) (pid pname : String)
    (ms : ℚ) (rs : RunState) (src : String) :
    (seqSearchStep fetch pid pname ms rs src).staging
      = stageForSource fetch pid pname ms rs.staging src := by
  unfold seqSearchStep stageForSource
  cases h : fetch pid src <;> simp [resultOf]
  case records rcs =>
    cases rcs with
    | nil => simp
    | cons r rcs => simp

/-- The sequential per-source step's tracker effect: the pair is marked
with defaults unless bot check, daily limit, or an exception escaping
`extract_from_source`. -/
theorem isProcessed_seqSearchStep (fetch : String → String → FetchOutcome) (qid pname : String)
    (ms : ℚ) (rs : RunState) (s : String) (pid src : String) :
    isProcessed (seqSearchStep fetch qid pname ms rs s).tracker pid src
      = (isProcessed rs.tracker pid src
         || (((qid, s) == (pid, src)) && !(fetch qid s).isBot && !(fetch qid s).isDaily
              && !(fetch qid s).isExc)) := by
  unfold seqSearchStep
  cases h : fetch qid s with
  | pyException m =>
      simp [h, FetchOutcome.isExc]
  | botCheck m =>
      simp [h, resultOf, FetchOutcome.isBot]
  | dailyLimit m =>
      simp [h, resultOf, FetchOutcome.isDaily]
  | records rcs =>
      have : ∀ z : RunState, z.tracker = markProcessed rs.tracker qid s 0 false none →
          isProcessed z.tracker pid src
            = (isProcessed rs.tracker pid src || ((qid, s) == (pid, src))) := by
        intro z hz
        rw [hz, isProcessed_markProcessed]
      simp only [h, resultOf]
      by_cases he : rcs.isEmpty = true <;>
        simp [he, FetchOutcome.isBot, FetchOutcome.isDaily, FetchOutcome.isExc,
          isProcessed_markProcessed]
  | fetchError m =>
      simp [h, resultOf, FetchOutcome.isBot, FetchOutcome.isDaily, FetchOutcome.isExc,
        isProcessed_markProcessed]

/-- Fold version of `skip_seqSearchStep`. -/
theorem skip_seqFold (fetch : String → String → FetchOutcome) (pid pname : String) (ms : ℚ) :
    ∀ (l : List String) (rs : RunState),
      (l.foldl (seqSearchStep fetch pid pname ms) rs).skip = rs.skip := by
  intro l
  induction l with
  | nil => intro rs; rfl
  | cons s l ih =>
      intro rs
      simp only [List.foldl_cons]
      rw [ih, skip_seqSearchStep]

/-- Fold version of `trace_seqSearchStep`: every candidate is
attempted, in order. -/
theorem trace_seqFold (fetch : String → String → FetchOutcome) (pid pname : String) (ms : ℚ) :
    ∀ (l : List String) (rs : RunState),
      (l.foldl (seqSearchStep fetch pid pname ms) rs).trace
        = rs.trace ++ l.map (fun s => (pid, s)) := by
  intro l
  induction l with
  | nil => intro rs; simp
  | cons s l ih =>
      intro rs
      simp only [List.foldl_cons, List.map_cons]
      rw [ih, trace_seqSearchStep]
      simp

/-- Fold version of `staging_seqSearchStep`. -/
theorem staging_seqFold (fetch : String → String → FetchOutcome) (pid pname : String) (ms : ℚ) :
    ∀ (l : List String) (rs : RunState),
      (l.foldl (seqSearchStep fetch pid pname ms) rs).staging
        = l.foldl (stageForSource fetch pid pname ms) rs.staging := by
  intro l
  induction l with
  | nil => intro rs; rfl
  | cons s l ih =>
      intro rs
      simp only [List.foldl_cons]
      rw [ih, staging_seqSearchStep]

/-- Fold version of `isProcessed_seqSearchStep`. -/
theorem isProcessed_seqFold (fetch : String → String → FetchOutcome) (qid pname : String)
    (ms : ℚ) (pid src : String) :
    ∀ (l : List String) (rs : RunState),
      isProcessed (l.foldl (seqSearchStep fetch qid pname ms) rs).tracker pid src
        = (isProcessed rs.tracker pid src
           || l.any (fun s => ((qid, s) == (pid, src)) && !(fetch qid s).isBot
                && !(fetch qid s).isDaily && !(fetch qid s).isExc)) := by
  intro l
  induction l with
  | nil => intro rs; simp
  | cons s l ih =>
      intro rs
      simp only [List.foldl_cons, List.any_cons]
      rw [ih, isProcessed_seqSearchStep]
      simp [Bool.or_assoc]

/-- The staging loop of the parallel branch, applied to the dispatch's
results, equals the per-source staging fold. -/
theorem stageParallelResults_eq_fold (fetch : String → String → FetchOutcome)
    (pid pname : String) (ms : ℚ) :
    ∀ (l : List String) (st : StagingState),
      stageParallelResults (l.map (fun s => (s, resultOf (fetch pid s)))) pid pname ms st
        = l.foldl (stageForSource fetch pid pname ms) st := by
  intro l
  induction l with
  | nil => intro st; rfl
  | cons s l ih =>
      intro st
      unfold stageParallelResults
      simp only [List.map_cons, List.foldl_cons]
      rw [← stageParallelResults]
      rw [ih]
      congr 1
      unfold stageForSource
      cases h : fetch pid s <;> simp [resultOf]

/-- The per-person staging effect, uniform across both branches: fold
`stageForSource` over the person's candidate sources. -/
theorem processPerson_staging (fetch : String → String → FetchOutcome) (par : Bool) (ms : ℚ)
    (keys : List String) (rs : RunState) (p : Person) :
    (processPerson fetch par ms keys rs p).staging
      = if pyIsEmpty p.name_surname || tooAncient p then rs.staging
        else (candidateSources rs p keys).foldl
            (stageForSource fetch p.id p.name_full ms) rs.staging := by
  unfold processPerson
  cases h1 : pyIsEmpty p.name_surname with
  | true => simp [h1]
  | false =>
    cases h2 : tooAncient p with
    | true => simp [h1, h2]
    | false =>
      simp only [h1, h2, Bool.false_eq_true, if_false, Bool.or_self]
      cases h3 : (candidateSources rs p keys).isEmpty with
      | true =>
          have hc : candidateSources rs p keys = [] := by simpa using h3
          simp [h3, hc]
      | false =>
          cases h4 : par && decide (1 < (candidateSources rs p keys).length) with
          | true =>
              simp only [h3, h4, Bool.false_eq_true, if_false, if_true]
              rw [parSearchAll_results, parSearchAll_staging, stageParallelResults_eq_fold]
          | false =>
              simp only [h3, h4, Bool.false_eq_true, if_false]
              exact staging_seqFold fetch p.id p.name_full ms _ rs

/-- The per-person trace effect: every candidate source is attempted,
in both branches. -/
theorem trace_processPerson (fetch : String → String → FetchOutcome) (par : Bool) (ms : ℚ)
    (keys : List String) (rs : RunState) (p : Person) :
    (processPerson fetch par ms keys rs p).trace
      = if pyIsEmpty p.name_surname || tooAncient p then rs.trace
        else rs.trace ++ (candidateSources rs p keys).map (fun s => (p.id, s)) := by
  unfold processPerson
  cases h1 : pyIsEmpty p.name_surname with
  | true => simp [h1]
  | false =>
    cases h2 : tooAncient p with
    | true => simp [h1, h2]
    | false =>
      simp only [h1, h2, Bool.false_eq_true, if_false, Bool.or_self]
      cases h3 : (candidateSources rs p keys).isEmpty with
      | true =>
          have hc : candidateSources rs p keys = [] := by simpa using h3
          simp [h3, hc]
      | false =>
          cases h4 : par && decide (1 < (candidateSources rs p keys).length) with
          | true =>
              simp only [h3, h4, Bool.false_eq_true, if_false, if_true]
              exact trace_parSearchAll fetch p.id _ rs
          | false =>
              simp only [h3, h4, Bool.false_eq_true, if_false]
              exact trace_seqFold fetch p.id p.name_full ms _ rs

/-- In sequential mode the per-person step never changes the session
skip-set. -/
theorem skip_processPerson_seq (fetch : String → String → FetchOutcome) (ms : ℚ)
    (keys : List String) (rs : RunState) (p : Person) :
    (processPerson fetch false ms keys rs p).skip = rs.skip := by
  unfold processPerson
  cases h1 : pyIsEmpty p.name_surname with
  | true => simp [h1]
  | false =>
    cases h2 : tooAncient p with
    | true => simp [h1, h2]
    | false =>
      simp only [h1, h2, Bool.false_eq_true, if_false]
      cases h3 : (candidateSources rs p keys).isEmpty with
      | true => simp [h3]
      | false =>
          simp only [h3, Bool.false_and, Bool.false_eq_true, if_false]
          exact skip_seqFold fetch p.id p.name_full ms _ rs

/-- Skip-set membership is preserved by the per-person step. -/
theorem skip_mono_processPerson (fetch : String → String → FetchOutcome) (par : Bool)
    (ms : ℚ) (keys : List String) (rs : RunState) (p : Person) (x : String)
    (hx : x ∈ rs.skip) :
    x ∈ (processPerson fetch par ms keys rs p).skip := by
  unfold processPerson
  cases h1 : pyIsEmpty p.name_surname with
  | true => simpa [h1] using hx
  | false =>
    cases h2 : tooAncient p with
    | true => simpa [h1, h2] using hx
    | false =>
      simp only [h1, h2, Bool.false_eq_true, if_false]
      cases h3 : (candidateSources rs p keys).isEmpty with
      | true => simpa [h3] using hx
      | false =>
          cases h4 : par && decide (1 < (candidateSources rs p keys).length) with
          | true =>
              simp only [h3, h4, Bool.false_eq_true, if_false, if_true]
              exact skip_mono_parSearchAll fetch p.id x _ rs hx
          | false =>
              simp only [h3, h4, Bool.false_eq_true, if_false]
              rw [skip_seqFold]
              exact hx

/-- Any new skip-set member introduced by the per-person step is a
source whose fetch reported a daily limit for that person. -/
theorem mem_skip_processPerson (fetch : String → String → FetchOutcome) (par : Bool)
    (ms : ℚ) (keys : List String) (rs : RunState) (p : Person) (x : String)
    (hx : x ∈ (processPerson fetch par ms keys rs p).skip) :
    x ∈ rs.skip ∨ (fetch p.id x).isDaily = true := by
  unfold processPerson at hx
  cases h1 : pyIsEmpty p.name_surname with
  | true => rw [h1] at hx; simp at hx; exact Or.inl hx
  | false =>
    rw [h1] at hx
    cases h2 : tooAncient p with
    | true => rw [h2] at hx; simp at hx; exact Or.inl hx
    | false =>
      rw [h2] at hx
      simp only [Bool.false_eq_true, if_false] at hx
      cases h3 : (candidateSources rs p keys).isEmpty with
      | true => rw [h3] at hx; simp at hx; exact Or.inl hx
      | false =>
          rw [h3] at hx
          simp only [Bool.false_eq_true, if_false] at hx
          cases h4 : par && decide (1 < (candidateSources rs p keys).length) with
          | true =>
              rw [h4] at hx
              simp only [if_true] at hx
              exact mem_skip_parSearchAll fetch p.id x _ rs hx
          | false =>
              rw [h4] at hx
              simp only [Bool.false_eq_true, if_false] at hx
              rw [skip_seqFold] at hx
              exact Or.inl hx

/-- Record-update projection: replacing the staging store keeps the
tracker. -/
theorem tracker_update_staging (z : RunState) (st : StagingState) :
    ({ z with staging := st } : RunState).tracker = z.tracker := rfl

/-- Record-update projection: replacing the staging store keeps the
skip-set. -/
theorem skip_update_staging (z : RunState) (st : StagingState) :
    ({ z with staging := st } : RunState).skip = z.skip := rfl

/-- A predicate false everywhere makes `any` false. -/
theorem any_eq_false_of {α : Type} (l : List α) (p : α → Bool) (h : ∀ x, p x = false) :
    l.any p = false := by
  induction l with
  | nil => rfl
  | cons a l ih => simp [List.any_cons, h a, ih]

/-- When every fetch of `src` is a bot check or a daily limit, the
parallel branch's marking predicate is false everywhere. -/
theorem par_pred_false (fetch : String → String → FetchOutcome) (qid pid src : String)
    (hsm : ∀ q, (fetch q src).isBot = true ∨ (fetch q src).isDaily = true) :
    ∀ s, (((qid, s) == (pid, src)) && !(fetch qid s).isBot && !(fetch qid s).isDaily)
      = false := by
  intro s
  by_cases hk : ((qid, s) == (pid, src)) = true
  · have he : (qid, s) = (pid, src) := eq_of_beq hk
    have hs : s = src := by injection he
    subst hs
    rcases hsm qid with hb | hd
    · simp [hb]
    · simp [hd]
  · have hk2 : ((qid, s) == (pid, src)) = false := by
      cases hz : (qid, s) == (pid, src)
      · rfl
      · exact absurd hz hk
    simp [hk2]

/-- Same, for the sequential branch's marking predicate. -/
theorem seq_pred_false (fetch : String → String → FetchOutcome) (qid pid src : String)
    (hsm : ∀ q, (fetch q src).isBot = true ∨ (fetch q src).isDaily = true) :
    ∀ s, (((qid, s) == (pid, src)) && !(fetch qid s).isBot && !(fetch qid s).isDaily
        && !(fetch qid s).isExc) = false := by
  intro s
  rw [Bool.and_eq_false_iff]
  left
  exact par_pred_false fetch qid pid src hsm s

/-- A key with a different person id is never marked by another
person's parallel predicate. -/
theorem par_pred_false_ne (fetch : String → String → FetchOutcome) (qid pid src : String)
    (hne : pid ≠ qid) :
    ∀ s, (((qid, s) == (pid, src)) && !(fetch qid s).isBot && !(fetch qid s).isDaily)
      = false := by
  intro s
  have hk2 : ((qid, s) == (pid, src)) = false := by
    cases hz : (qid, s) == (pid, src)
    · rfl
    · have he : (qid, s) = (pid, src) := eq_of_beq hz
      have : qid = pid := by injection he
      exact absurd this.symm hne
  simp [hk2]

/-- A key with a different person id is never marked by another
person's sequential predicate. -/
theorem seq_pred_false_ne (fetch : String → String → FetchOutcome) (qid pid src : String)
    (hne : pid ≠ qid) :
    ∀ s, (((qid, s) == (pid, src)) && !(fetch qid s).isBot && !(fetch qid s).isDaily
        && !(fetch qid s).isExc) = false := by
  intro s
  rw [Bool.and_eq_false_iff]
  left
  exact par_pred_false_ne fetch qid pid src hne s

/-- When every fetch of `src` is a bot check or daily limit, the
per-person step never marks (pid, src). -/
theorem isProcessed_processPerson_false (fetch : String → String → FetchOutcome) (par : Bool)
    (ms : ℚ) (keys : List String) (rs : RunState) (p : Person) (pid src : String)
    (hsm : ∀ q, (fetch q src).isBot = true ∨ (fetch q src).isDaily = true)
    (h0 : isProcessed rs.tracker pid src = false) :
    isProcessed (processPerson fetch par ms keys rs p).tracker pid src = false := by
  unfold processPerson
  cases h1 : pyIsEmpty p.name_surname with
  | true => simpa [h1] using h0
  | false =>
    cases h2 : tooAncient p with
    | true => simpa [h1, h2] using h0
    | false =>
      simp only [h1, h2, Bool.false_eq_true, if_false]
      cases h3 : (candidateSources rs p keys).isEmpty with
      | true => simpa [h3] using h0
      | false =>
          cases h4 : par && decide (1 < (candidateSources rs p keys).length) with
          | true =>
              simp only [h3, h4, Bool.false_eq_true, if_false, if_true]
              rw [tracker_update_staging, isProcessed_parSearchAll, h0,
                any_eq_false_of _ _ (par_pred_false fetch p.id pid src hsm)]
              rfl
          | false =>
              simp only [h3, h4, Bool.false_eq_true, if_false]
              rw [isProcessed_seqFold, h0,
                any_eq_false_of _ _ (seq_pred_false fetch p.id pid src hsm)]
              rfl

/-- The per-person step never marks a key belonging to a different
person id. -/
theorem isProcessed_processPerson_ne (fetch : String → String → FetchOutcome) (par : Bool)
    (ms : ℚ) (keys : List String) (rs : RunState) (p : Person) (pid src : String)
    (hne : pid ≠ p.id) :
    isProcessed (processPerson fetch par ms keys rs p).tracker pid src
      = isProcessed rs.tracker pid src := by
  unfold processPerson
  cases h1 : pyIsEmpty p.name_surname with
  | true => simp [h1]
  | false =>
    cases h2 : tooAncient p with
    | true => simp [h1, h2]
    | false =>
      simp only [h1, h2, Bool.false_eq_true, if_false]
      cases h3 : (candidateSources rs p keys).isEmpty with
      | true => simp [h3]
      | false =>
          cases h4 : par && decide (1 < (candidateSources rs p keys).length) with
          | true =>
              simp only [h3, h4, Bool.false_eq_true, if_false, if_true]
              rw [tracker_update_staging, isProcessed_parSearchAll,
                any_eq_false_of _ _ (par_pred_false_ne fetch p.id pid src hne)]
              simp
          | false =>
              simp only [h3, h4, Bool.false_eq_true, if_false]
              rw [isProcessed_seqFold,
                any_eq_false_of _ _ (seq_pred_false_ne fetch p.id pid src hne)]
              simp

/-- Run-level: when every fetch of `src` is a bot check or daily limit,
the whole run never marks (pid, src). -/
theorem isProcessed_run_false (fetch : String → String → FetchOutcome) (par : Bool)
    (ms : ℚ) (keys : List String) (pid src : String)
    (hsm : ∀ q, (fetch q src).isBot = true ∨ (fetch q src).isDaily = true) :
    ∀ (people : List Person) (rs : RunState), isProcessed rs.tracker pid src = false →
      isProcessed (runResearch fetch par ms keys people rs).tracker pid src = false := by
  intro people
  induction people with
  | nil => intro rs h0; exact h0
  | cons p people ih =>
      intro rs h0
      exact ih _ (isProcessed_processPerson_false fetch par ms keys rs p pid src hsm h0)

/-- Run-level skip-set monotonicity. -/
theorem skip_mono_run (fetch : String → String → FetchOutcome) (par : Bool) (ms : ℚ)
    (keys : List String) (x : String) :
    ∀ (people : List Person) (rs : RunState), x ∈ rs.skip →
      x ∈ (runResearch fetch par ms keys people rs).skip := by
  intro people
  induction people with
  | nil => intro rs hx; exact hx
  | cons p people ih =>
      intro rs hx
      exact ih _ (skip_mono_processPerson fetch par ms keys rs p x hx)

/-- Run-level: a source never reporting a daily limit never joins the
skip-set. -/
theorem not_mem_skip_run (fetch : String → String → FetchOutcome) (par : Bool) (ms : ℚ)
    (keys : List String) (x : String)
    (hnd : ∀ q, (fetch q x).isDaily = false) :
    ∀ (people : List Person) (rs : RunState), x ∉ rs.skip →
      x ∉ (runResearch fetch par ms keys people rs).skip := by
  intro people
  induction people with
  | nil => intro rs hx; exact hx
  | cons p people ih =>
      intro rs hx
      apply ih
      intro hmem
      rcases mem_skip_processPerson fetch par ms keys rs p x hmem with h | h
      · exact hx h
      · rw [hnd p.id] at h
        exact Bool.false_ne_true h

/-- Run-level: once a source is in the session skip-set, no later trace
entry mentions it. -/
theorem run_trace_avoids_skip (fetch : String → String → FetchOutcome) (par : Bool)
    (ms : ℚ) (keys : List String) (src : String) :
    ∀ (people : List Person) (rs : RunState), src ∈ rs.skip →
      ∀ e ∈ (runResearch fetch par ms keys people rs).trace, e ∈ rs.trace ∨ e.2 ≠ src := by
  intro people
  induction people with
  | nil => intro rs _ e he; exact Or.inl he
  | cons p people ih =>
      intro rs hskip e he
      have hskip2 : src ∈ (processPerson fetch par ms keys rs p).skip :=
        skip_mono_processPerson fetch par ms keys rs p src hskip
      rcases ih _ hskip2 e he with h | h
      · rw [trace_processPerson] at h
        by_cases hc : (pyIsEmpty p.name_surname || tooAncient p) = true
        · rw [if_pos hc] at h
          exact Or.inl h
        · rw [if_neg hc] at h
          rcases List.mem_append.mp h with h1 | h1
          · exact Or.inl h1
          · obtain ⟨s, hs, rfl⟩ := List.mem_map.mp h1
            right
            intro hcontra
            rw [show ((p.id, s).2 : String) = s from rfl] at hcontra
            subst hcontra
            have hpred := (List.mem_filter.mp hs).2
            have hcont : rs.skip.contains s = true := List.elem_iff.mpr hskip
            rw [hcont] at hpred
            simp at hpred
      · exact Or.inr h

/-- Every candidate source of a searched person is attempted (appears
in the trace). -/
theorem processPerson_attempts (fetch : String → String → FetchOutcome) (par : Bool)
    (ms : ℚ) (keys : List String) (rs : RunState) (p : Person) (s : String)
    (hsur : pyIsEmpty p.name_surname = false) (hanc : tooAncient p = false)
    (hc : s ∈ candidateSources rs p keys) :
    (p.id, s) ∈ (processPerson fetch par ms keys rs p).trace := by
  rw [trace_processPerson]
  rw [if_neg (by simp [hsur, hanc])]
  exact List.mem_append_right _ (List.mem_map.mpr ⟨s, hc, rfl⟩)

/-- A bot check is not a daily limit. -/
theorem isDaily_false_of_isBot (o : FetchOutcome) (h : o.isBot = true) : o.isDaily = false := by
  cases o <;> simp [FetchOutcome.isBot, FetchOutcome.isDaily] at h ⊢

/-- An unprocessed source key is a candidate at the start of a fresh
run (empty session skip-set). -/
theorem mem_candidate_init (t : TrackerState) (s0 : StagingState) (p : Person)
    (keys : List String) (src : String) (hk : src ∈ keys)
    (hnp : isProcessed t p.id src = false) :
    src ∈ candidateSources (initState t s0) p keys := by
  unfold candidateSources initState getUnprocessed
  simp [List.mem_filter, hk, hnp]

/-- C2: for every run in which source `src` raises BotCheckDetected
whenever it is searched (in particular while searching person pid),
after the run `is_processed(pid, src)` is still false — the search log
is never written for that pair — and `src` is never added to the
session's daily-limit skip-set; consequently a rerun over a roster
containing pid (with a usable surname and birth year, and `src` among
the active sources) attempts `src` for pid again. -/
theorem botCheck_not_processed_not_skipped (fetch : String → String → FetchOutcome)
    (parallel : Bool) (minScore : ℚ) (sourceKeys : List String) (people : List Person)
    (pid src : String) (t0 : TrackerState) (s0 : StagingState)
    (hbot : ∀ q, (fetch q src).isBot = true)
    (h0 : isProcessed t0 pid src = false) :
    isProcessed (runResearch fetch parallel minScore sourceKeys people
        (initState t0 s0)).tracker pid src = false
    ∧ src ∉ (runResearch fetch parallel minScore sourceKeys people (initState t0 s0)).skip
    ∧ ∀ p : Person, p.id = pid → pyIsEmpty p.name_surname = false → tooAncient p = false →
        src ∈ sourceKeys →
        (pid, src) ∈ (runResearch fetch parallel minScore sourceKeys [p]
          (initState (runResearch fetch parallel minScore sourceKeys people
            (initState t0 s0)).tracker s0)).trace := by
  have hsm : ∀ q, (fetch q src).isBot = true ∨ (fetch q src).isDaily = true :=
    fun q => Or.inl (hbot q)
  have hnd : ∀ q, (fetch q src).isDaily = false :=
    fun q => isDaily_false_of_isBot _ (hbot q)
  have hfin : isProcessed (runResearch fetch parallel minScore sourceKeys people
      (initState t0 s0)).tracker pid src = false :=
    isProcessed_run_false fetch parallel minScore sourceKeys pid src hsm people _ h0
  refine ⟨hfin, ?_, ?_⟩
  · apply not_mem_skip_run fetch parallel minScore sourceKeys src hnd
    simp [initState]
  · intro p hp hsur hanc hk
    have hc : src ∈ candidateSources (initState (runResearch fetch parallel minScore
        sourceKeys people (initState t0 s0)).tracker s0) p sourceKeys := by
      apply mem_candidate_init _ _ _ _ _ hk
      rw [hp]
      exact hfin
    have hatt := processPerson_attempts fetch parallel minScore sourceKeys _ p src hsur hanc hc
    rw [hp] at hatt
    exact hatt

/-- C2 witness: a one-person, one-source run where the source
bot-checks: afterwards the pair is unprocessed and the skip-set does not
contain the source. -/
theorem botCheck_witness :
    isProcessed (runResearch botFetch true 80 ["s1"] [personA]
        (initState ⟨[]⟩ ⟨[]⟩)).tracker "A" "s1" = false
    ∧ "s1" ∉ (runResearch botFetch true 80 ["s1"] [personA] (initState ⟨[]⟩ ⟨[]⟩)).skip := by
  have h := botCheck_not_processed_not_skipped botFetch true 80 ["s1"] [personA] "A" "s1"
      ⟨[]⟩ ⟨[]⟩ (fun q => rfl) rfl
  exact ⟨h.1, h.2.1⟩

/-- C3 counterexample: a sequential run (research.py lines 311-367) over
two people and one source where the source raises DailyLimitReached for
everyone: person A hits the daily limit on s1, yet person B still
attempts s1 — the trace contains ("B", "s1") — and the session skip-set
stays empty, because the sequential branch `continue`s without adding to
`_daily_limit_sources`. -/
theorem dailyLimit_sequential_counterexample :
    (runResearch (fun _ _ => FetchOutcome.dailyLimit "limit") false 50 ["s1"]
        [personA, personB] emptyRun).trace = [("A", "s1"), ("B", "s1")]
    ∧ (runResearch (fun _ _ => FetchOutcome.dailyLimit "limit") false 50 ["s1"]
        [personA, personB] emptyRun).skip = [] := by
  refine ⟨by decide, by decide⟩

/-- In the parallel branch (parallel mode, more than one candidate),
the skip-set after the person is the dispatch's skip-set. -/
theorem skip_processPerson_parallel (fetch : String → String → FetchOutcome) (ms : ℚ)
    (keys : List String) (rs : RunState) (p : Person)
    (hsur : pyIsEmpty p.name_surname = false) (hanc : tooAncient p = false)
    (hlen : 1 < (candidateSources rs p keys).length) :
    (processPerson fetch true ms keys rs p).skip
      = (parSearchAll fetch p.id (candidateSources rs p keys) rs).2.skip := by
  unfold processPerson
  have hne : (candidateSources rs p keys).isEmpty = false := by
    cases hcc : candidateSources rs p keys with
    | nil => rw [hcc] at hlen; simp at hlen
    | cons a l => simp
  simp only [hsur, hanc, Bool.false_eq_true, if_false, hne, hlen, decide_True,
    Bool.true_and, if_true]

/-- C3 amended: after DailyLimitReached is raised by `src` in a
person's parallel-branch search (parallel mode, more than one candidate
source), `src` is in the session skip-set, the pair is not marked
processed for the rest of the run, and no later person attempts `src`;
a fresh run (new session, empty skip-set) attempts `src` again.  (In
the sequential branch the skip-set is not updated — see the
counterexample.) -/
theorem dailyLimit_parallel_skip (fetch : String → String → FetchOutcome) (minScore : ℚ)
    (sourceKeys : List String) (rest : List Person) (p : Person) (rs : RunState) (src : String)
    (hdl : ∀ q, (fetch q src).isDaily = true)
    (hcand : src ∈ candidateSources rs p sourceKeys)
    (hlen : 1 < (candidateSources rs p sourceKeys).length)
    (hsur : pyIsEmpty p.name_surname = false) (hanc : tooAncient p = false)
    (h0 : isProcessed rs.tracker p.id src = false) :
    src ∈ (processPerson fetch true minScore sourceKeys rs p).skip
    ∧ isProcessed (runResearch fetch true minScore sourceKeys rest
        (processPerson fetch true minScore sourceKeys rs p)).tracker p.id src = false
    ∧ (∀ e ∈ (runResearch fetch true minScore sourceKeys rest
          (processPerson fetch true minScore sourceKeys rs p)).trace,
        e ∈ (processPerson fetch true minScore sourceKeys rs p).trace ∨ e.2 ≠ src)
    ∧ ∀ (pf : Person) (s0 : StagingState), pf.id = p.id →
        pyIsEmpty pf.name_surname = false → tooAncient pf = false → src ∈ sourceKeys →
        (p.id, src) ∈ (runResearch fetch true minScore sourceKeys [pf]
          (initState (runResearch fetch true minScore sourceKeys rest
            (processPerson fetch true minScore sourceKeys rs p)).tracker s0)).trace := by
  have hsm : ∀ q, (fetch q src).isBot = true ∨ (fetch q src).isDaily = true :=
    fun q => Or.inr (hdl q)
  have hskip1 : src ∈ (processPerson fetch true minScore sourceKeys rs p).skip := by
    rw [skip_processPerson_parallel fetch minScore sourceKeys rs p hsur hanc hlen]
    exact skip_added_parSearchAll fetch p.id src _ rs hcand (hdl p.id)
  have hproc : isProcessed (processPerson fetch true minScore sourceKeys rs p).tracker
      p.id src = false :=
    isProcessed_processPerson_false fetch true minScore sourceKeys rs p p.id src hsm h0
  have hfin : isProcessed (runResearch fetch true minScore sourceKeys rest
      (processPerson fetch true minScore sourceKeys rs p)).tracker p.id src = false :=
    isProcessed_run_false fetch true minScore sourceKeys p.id src hsm rest _ hproc
  refine ⟨hskip1, hfin, ?_, ?_⟩
  · exact run_trace_avoids_skip fetch true minScore sourceKeys src rest _ hskip1
  · intro pf s0 hid hsur2 hanc2 hk
    have hc : src ∈ candidateSources (initState (runResearch fetch true minScore sourceKeys
        rest (processPerson fetch true minScore sourceKeys rs p)).tracker s0) pf sourceKeys := by
      apply mem_candidate_init _ _ _ _ _ hk
      rw [hid]
      exact hfin
    have hatt := processPerson_attempts fetch true minScore sourceKeys _ pf src hsur2 hanc2 hc
    rw [hid] at hatt
    exact hatt

/-- C3 witness: the amended theorem applied to a concrete parallel run
(two people, two sources, s1 at its daily limit for everyone). -/
theorem dailyLimit_parallel_skip_witness :
    "s1" ∈ (processPerson c3fetch true 80 ["s1", "s2"] emptyRun personA).skip
    ∧ isProcessed (runResearch c3fetch true 80 ["s1", "s2"] [personB]
        (processPerson c3fetch true 80 ["s1", "s2"] emptyRun personA)).tracker
        "A" "s1" = false := by
  have h := dailyLimit_parallel_skip c3fetch 80 ["s1", "s2"] [personB] personA emptyRun "s1"
      (fun q => rfl) (by decide) (by decide) rfl rfl rfl
  exact ⟨h.1, h.2.1⟩

/-- Pending extension is reflexive. -/
theorem pendingExt_refl (s : StagingState) : PendingExtension s s :=
  ⟨[], by simp, by intro r hr; simp at hr⟩

/-- Pending extension is transitive. -/
theorem pendingExt_trans {a b c : StagingState}
    (h1 : PendingExtension a b) (h2 : PendingExtension b c) : PendingExtension a c := by
  obtain ⟨l1, e1, p1⟩ := h1
  obtain ⟨l2, e2, p2⟩ := h2
  refine ⟨l1 ++ l2, by simp [e2, e1], ?_⟩
  intro r hr
  rcases List.mem_append.mp hr with h | h
  · exact p1 r h
  · exact p2 r h

/-- `add_finding` appends exactly one pending row. -/
theorem pendingExt_addFinding (st : StagingState) (pid pname srcName : String)
    (url : Option String) (rc : PyRecord) (score : ℚ) :
    PendingExtension st (addFinding st pid pname srcName url rc score) := by
  refine ⟨_, rfl, ?_⟩
  intro r hr
  simp at hr
  subst hr
  rfl

/-- Folding pending-extending steps pending-extends. -/
theorem pendingExt_foldl {α : Type} (g : StagingState → α → StagingState)
    (hg : ∀ st a, PendingExtension st (g st a)) :
    ∀ (l : List α) (st : StagingState), PendingExtension st (l.foldl g st) := by
  intro l
  induction l with
  | nil => intro st; exact pendingExt_refl st
  | cons a l ih =>
      intro st
      exact pendingExt_trans (hg st a) (ih (g st a))

/-- The staging loop appends only pending rows. -/
theorem pendingExt_stageRecords (st : StagingState) (pid pname src : String) (ms : ℚ)
    (rcs : List PyRecord) :
    PendingExtension st (stageRecords st pid pname src ms rcs) := by
  unfold stageRecords
  apply pendingExt_foldl
  intro st2 r
  by_cases h : ms ≤ r.match_score
  · simp only [h, if_true]
    exact pendingExt_addFinding st2 pid pname src r.url r r.match_score
  · simp only [h, if_false]
    exact pendingExt_refl st2

/-- One source's staging effect appends only pending rows. -/
theorem pendingExt_stageForSource (fetch : String → String → FetchOutcome)
    (pid pname : String) (ms : ℚ) (st : StagingState) (s : String) :
    PendingExtension st (stageForSource fetch pid pname ms st s) := by
  unfold stageForSource
  cases h : fetch pid s with
  | records rcs =>
      by_cases he : rcs.isEmpty = true
      · simp only [he, if_true]
        exact pendingExt_refl st
      · simp only [he, Bool.false_eq_true, if_false]
        exact pendingExt_stageRecords st pid pname s ms rcs
  | botCheck m => exact pendingExt_refl st
  | dailyLimit m => exact pendingExt_refl st
  | fetchError m => exact pendingExt_refl st
  | pyException m => exact pendingExt_refl st

/-- The whole run only appends pending rows to the staging store. -/
theorem pendingExt_run (fetch : String → String → FetchOutcome) (par : Bool) (ms : ℚ)
    (keys : List String) :
    ∀ (people : List Person) (rs : RunState),
      PendingExtension rs.staging (runResearch fetch par ms keys people rs).staging := by
  intro people
  induction people with
  | nil => intro rs; exact pendingExt_refl rs.staging
  | cons p people ih =>
      intro rs
      refine pendingExt_trans ?_ (ih (processPerson fetch par ms keys rs p))
      rw [processPerson_staging]
      by_cases h : (pyIsEmpty p.name_surname || tooAncient p) = true
      · rw [if_pos h]
        exact pendingExt_refl rs.staging
      · rw [if_neg h]
        exact pendingExt_foldl _
          (fun st a => pendingExt_stageForSource fetch p.id p.name_full ms st a) _ rs.staging

/-- C4 amended: every staged_findings row is created with status
'pending' — `add_finding` appends one pending row, and a whole research
run only ever appends pending rows, never modifying existing ones — but
`approve` and `reject` UPDATE the addressed id unconditionally: after
`approve(id)` every row with that id is 'approved' and after
`reject(id)` it is 'rejected', regardless of the previous (possibly
terminal) status, so terminal statuses are not protected against
further approve/reject calls. -/
theorem staging_lifecycle_amended :
    (∀ (st : StagingState) (pid pname srcName : String) (url : Option String)
        (rc : PyRecord) (score : ℚ),
      PendingExtension st (addFinding st pid pname srcName url rc score))
    ∧ (∀ (fetch : String → String → FetchOutcome) (par : Bool) (ms : ℚ)
        (keys : List String) (people : List Person) (rs : RunState),
      PendingExtension rs.staging (runResearch fetch par ms keys people rs).staging)
    ∧ (∀ (st : StagingState) (fid : Nat) (notes : Option String) (r : StagedRow),
        r ∈ (approveFinding st fid notes).rows → r.id = fid → r.status = "approved")
    ∧ (∀ (st : StagingState) (fid : Nat) (notes : Option String) (r : StagedRow),
        r ∈ (rejectFinding st fid notes).rows → r.id = fid → r.status = "rejected") := by
  refine ⟨pendingExt_addFinding, fun fetch par ms keys people rs =>
    pendingExt_run fetch par ms keys people rs, ?_, ?_⟩
  · intro st fid notes r hr hid
    unfold approveFinding at hr
    simp only [List.mem_map] at hr
    obtain ⟨r0, hr0, heq⟩ := hr
    by_cases h : (r0.id == fid) = true
    · rw [if_pos h] at heq
      rw [← heq]
    · rw [if_neg h] at heq
      subst heq
      exact absurd (beq_iff_eq.mpr hid) h
  · intro st fid notes r hr hid
    unfold rejectFinding at hr
    simp only [List.mem_map] at hr
    obtain ⟨r0, hr0, heq⟩ := hr
    by_cases h : (r0.id == fid) = true
    · rw [if_pos h] at heq
      rw [← heq]
    · rw [if_neg h] at heq
      subst heq
      exact absurd (beq_iff_eq.mpr hid) h

/-- C4 witness: the amended theorem applied to a concrete run and a
concrete approve call. -/
theorem staging_lifecycle_amended_witness :
    PendingExtension emptyRun.staging
      (runResearch c9fetch true 0 ["s1", "s2"] [personA, personB] emptyRun).staging
    ∧ ∀ r ∈ (approveFinding stagedOne 1 none).rows, r.id = 1 → r.status = "approved" :=
  ⟨staging_lifecycle_amended.2.1 c9fetch true 0 ["s1", "s2"] [personA, personB] emptyRun,
   fun r hr hid => staging_lifecycle_amended.2.2.1 stagedOne 1 none r hr hid⟩

/-- A run whose every fetch returns zero records stages nothing. -/
theorem runResearch_staging_id (fetch : String → String → FetchOutcome) (par : Bool)
    (ms : ℚ) (keys : List String)
    (hempty : ∀ q s, fetch q s = FetchOutcome.records []) :
    ∀ (people : List Person) (rs : RunState),
      (runResearch fetch par ms keys people rs).staging = rs.staging := by
  have hstage : ∀ pid pname st s, stageForSource fetch pid pname ms st s = st := by
    intro pid pname st s
    unfold stageForSource
    rw [hempty pid s]
    simp
  have hfold : ∀ pid pname (l : List String) (st : StagingState),
      l.foldl (stageForSource fetch pid pname ms) st = st := by
    intro pid pname l
    induction l with
    | nil => intro st; rfl
    | cons s l ih =>
        intro st
        simp only [List.foldl_cons, hstage]
        exact ih st
  intro people
  induction people with
  | nil => intro rs; rfl
  | cons p people ih =>
      intro rs
      have hp : (processPerson fetch par ms keys rs p).staging = rs.staging := by
        rw [processPerson_staging]
        by_cases h : (pyIsEmpty p.name_surname || tooAncient p) = true
        · rw [if_pos h]
        · rw [if_neg h]
          exact hfold p.id p.name_full _ rs.staging
      calc (runResearch fetch par ms keys (p :: people) rs).staging
          = (runResearch fetch par ms keys people
              (processPerson fetch par ms keys rs p)).staging := rfl
        _ = (processPerson fetch par ms keys rs p).staging := ih _
        _ = rs.staging := hp

/-- C1 counterexample: a source whose payload carries a result-present
indicator and whose extractor returns zero records — the claim demands
exactly one staged sentinel row, but the research run stages NOTHING for
it: `extract_from_source` (extract.py line 501) calls `extract_records`
directly, never `extract_with_fallback`, so no sentinel is ever
produced. -/
theorem fallback_sentinel_not_staged_counterexample :
    brokenExtractor.has_results_indicator "payload with 3 results" = true
    ∧ brokenExtractor.extract_records "payload with 3 results" noParams = Except.ok []
    ∧ (runResearch (fun _ _ => extractionOutcome brokenExtractor "payload with 3 results"
        noParams) false 50 ["geneanet"] [personA] emptyRun).staging.rows = [] := by
  refine ⟨rfl, rfl, by decide⟩

/-- C1 amended: for a payload with a result-present indicator whose
extractor yields zero records, the fallback wrapper
`extract_with_fallback` returns exactly one sentinel record with
`name = PARSE_FAILED` and `match_score = 50` (and on extractor
exception, `PARSE_ERROR` with `match_score = 50`); but the research
pipeline calls `extract_records` directly, so a run over ANY roster,
sources and threshold stages nothing at all for such a source — the
sentinel never reaches staged_findings. -/
theorem extract_with_fallback_sentinel (E : Extractor) (sourceName content : String)
    (params : SearchParams) (url : String) :
    (E.extract_records content params = Except.ok [] →
      E.has_results_indicator content = true →
      extract_with_fallback E sourceName content params url
        = createFallbackRecord sourceName url "PARSE_FAILED"
      ∧ ∀ r ∈ extract_with_fallback E sourceName content params url,
          r.name = some "PARSE_FAILED" ∧ r.match_score = 50)
    ∧ (∀ m, E.extract_records content params = Except.error m →
      extract_with_fallback E sourceName content params url
        = createFallbackRecord sourceName url "PARSE_ERROR"
      ∧ ∀ r ∈ extract_with_fallback E sourceName content params url,
          r.name = some "PARSE_ERROR" ∧ r.match_score = 50)
    ∧ (∀ (par : Bool) (ms : ℚ) (keys : List String) (people : List Person) (rs : RunState),
        E.extract_records content params = Except.ok [] →
        (runResearch (fun _ _ => extractionOutcome E content params)
            par ms keys people rs).staging = rs.staging) := by
  refine ⟨?_, ?_, ?_⟩
  · intro hok hind
    have he : extract_with_fallback E sourceName content params url
        = createFallbackRecord sourceName url "PARSE_FAILED" := by
      unfold extract_with_fallback
      rw [hok]
      simp [hind]
    refine ⟨he, ?_⟩
    intro r hr
    rw [he] at hr
    unfold createFallbackRecord at hr
    simp at hr
    subst hr
    exact ⟨rfl, rfl⟩
  · intro m herr
    have he : extract_with_fallback E sourceName content params url
        = createFallbackRecord sourceName url "PARSE_ERROR" := by
      unfold extract_with_fallback
      rw [herr]
    refine ⟨he, ?_⟩
    intro r hr
    rw [he] at hr
    unfold createFallbackRecord at hr
    simp at hr
    subst hr
    exact ⟨rfl, rfl⟩
  · intro par ms keys people rs hok
    apply runResearch_staging_id
    intro q s
    unfold extractionOutcome
    rw [hok]

/-- C1 witness: the amended theorem applied to the concrete broken
extractor — the wrapper returns the sentinel, and a concrete run stages
nothing. -/
theorem extract_with_fallback_sentinel_witness :
    extract_with_fallback brokenExtractor "Geneanet" "payload" noParams "http://x"
      = createFallbackRecord "Geneanet" "http://x" "PARSE_FAILED"
    ∧ (runResearch (fun _ _ => extractionOutcome brokenExtractor "payload" noParams)
        true 50 ["s1"] [personA] emptyRun).staging = emptyRun.staging :=
  ⟨((extract_with_fallback_sentinel brokenExtractor "Geneanet" "payload" noParams
      "http://x").1 rfl rfl).1,
   (extract_with_fallback_sentinel brokenExtractor "Geneanet" "payload" noParams
      "http://x").2.2 true 50 ["s1"] [personA] emptyRun rfl⟩

/-- C9 counterexample: roster [A, B], sources [s1, s2], min_score 0,
fixed fetch results where s1 reports a daily limit for A only and a
90-scored record for B.  The sequential run stages that record (1 row);
the parallel run adds s1 to the session skip-set during A and so never
searches s1 for B (0 rows): the staged multisets differ. -/
theorem parallel_sequential_counterexample :
    (runResearch c9fetch false 0 ["s1", "s2"] [personA, personB] emptyRun).staging.rows.length
      = 1
    ∧ (runResearch c9fetch true 0 ["s1", "s2"] [personA, personB] emptyRun).staging.rows.length
      = 0 := by
  refine ⟨by decide, by decide⟩

/-- `get_unprocessed_sources` only depends on the tracker through the
person's own keys. -/
theorem getUnprocessed_congr (t1 t2 : TrackerState) (pid : String) (keys : List String)
    (h : ∀ s, isProcessed t1 pid s = isProcessed t2 pid s) :
    getUnprocessed t1 pid keys = getUnprocessed t2 pid keys := by
  unfold getUnprocessed
  apply List.filter_congr
  intro s _
  rw [h s]

/-- The parallel run's candidate list is the sequential run's candidate
list with the skip-set members filtered out. -/
theorem candidateSources_filter (rsP rsS : RunState) (p : Person) (keys : List String)
    (htr : ∀ s, isProcessed rsP.tracker p.id s = isProcessed rsS.tracker p.id s)
    (hskipS : rsS.skip = []) :
    candidateSources rsP p keys
      = (candidateSources rsS p keys).filter (fun s => !rsP.skip.contains s) := by
  unfold candidateSources
  rw [hskipS, getUnprocessed_congr rsP.tracker rsS.tracker p.id keys htr]
  simp

/-- A source at its daily limit stages nothing. -/
theorem stageForSource_daily (fetch : String → String → FetchOutcome) (qid pname : String)
    (ms : ℚ) (st : StagingState) (s : String) (hd : (fetch qid s).isDaily = true) :
    stageForSource fetch qid pname ms st s = st := by
  unfold stageForSource
  cases hf : fetch qid s <;> simp_all [FetchOutcome.isDaily]

/-- Dropping daily-limited sources from the staging fold changes
nothing. -/
theorem foldl_stageForSource_filter (fetch : String → String → FetchOutcome)
    (qid pname : String) (ms : ℚ) (pr : String → Bool)
    (hdrop : ∀ s, pr s = false → (fetch qid s).isDaily = true) :
    ∀ (l : List String) (st : StagingState),
      (l.filter pr).foldl (stageForSource fetch qid pname ms) st
        = l.foldl (stageForSource fetch qid pname ms) st := by
  intro l
  induction l with
  | nil => intro st; rfl
  | cons s l ih =>
      intro st
      by_cases hp : pr s = true
      · simp only [List.filter_cons, hp, if_true, List.foldl_cons]
        exact ih _
      · have hp2 : pr s = false := by
          cases hz : pr s
          · rfl
          · exact absurd hz hp
        simp only [List.filter_cons, hp2, Bool.false_eq_true, if_false, List.foldl_cons]
        rw [stageForSource_daily fetch qid pname ms st s (hdrop s hp2)]
        exact ih st

/-- Core of the C9 equivalence: under per-source-consistent daily
limits and pairwise-distinct roster ids, the parallel and the
sequential run build the same staging store. -/
theorem run_par_seq_staging (fetch : String → String → FetchOutcome) (ms : ℚ)
    (keys : List String)
    (hdl : ∀ s q q2, (fetch q s).isDaily = true → (fetch q2 s).isDaily = true) :
    ∀ (people : List Person) (rsP rsS : RunState),
      people.Pairwise (fun a b => a.id ≠ b.id) →
      rsP.staging = rsS.staging →
      rsS.skip = [] →
      (∀ s ∈ rsP.skip, ∀ q, (fetch q s).isDaily = true) →
      (∀ q ∈ people, ∀ s, isProcessed rsP.tracker q.id s = isProcessed rsS.tracker q.id s) →
      (runResearch fetch true ms keys people rsP).staging
        = (runResearch fetch false ms keys people rsS).staging := by
  intro people
  induction people with
  | nil =>
      intro rsP rsS _ hstag _ _ _
      exact hstag
  | cons p people ih =>
      intro rsP rsS hpw hstag hskipS hskipP htr
      have hpw2 := List.pairwise_cons.mp hpw
      have hcand : candidateSources rsP p keys
          = (candidateSources rsS p keys).filter (fun s => !rsP.skip.contains s) :=
        candidateSources_filter rsP rsS p keys (htr p (by simp)) hskipS
      have hstag2 : (processPerson fetch true ms keys rsP p).staging
          = (processPerson fetch false ms keys rsS p).staging := by
        rw [processPerson_staging, processPerson_staging]
        by_cases hc : (pyIsEmpty p.name_surname || tooAncient p) = true
        · rw [if_pos hc, if_pos hc]
          exact hstag
        · rw [if_neg hc, if_neg hc, hcand, hstag]
          apply foldl_stageForSource_filter
          intro s hp
          have hcont : rsP.skip.contains s = true := by
            cases hz : rsP.skip.contains s
            · rw [hz] at hp; simp at hp
            · rfl
          have hmem : s ∈ rsP.skip := List.elem_iff.mp hcont
          exact hskipP s hmem p.id
      apply ih (processPerson fetch true ms keys rsP p) (processPerson fetch false ms keys rsS p)
        hpw2.2 hstag2
      · rw [skip_processPerson_seq]
        exact hskipS
      · intro s hs q
        rcases mem_skip_processPerson fetch true ms keys rsP p s hs with h | h
        · exact hskipP s h q
        · exact hdl s p.id q h
      · intro q hq s
        have hne : q.id ≠ p.id := fun h => hpw2.1 q hq h.symm
        rw [isProcessed_processPerson_ne fetch true ms keys rsP p q.id s hne,
          isProcessed_processPerson_ne fetch false ms keys rsS p q.id s hne]
        exact htr q (by simp [hq]) s

/-- C9 amended: for a fixed roster with pairwise-distinct person ids,
fixed per-(person, source) fetch results whose daily-limit outcomes are
per-source consistent across persons, and the same min_score, the
multiset of findings staged by a sequential run equals the multiset
staged by a parallel run.  (Without the consistency hypothesis the runs
can differ — see the counterexample: a source daily-limited for an
early person only is skipped for later persons in parallel mode but
searched in sequential mode.) -/
theorem parallel_sequential_equiv (fetch : String → String → FetchOutcome) (minScore : ℚ)
    (sourceKeys : List String) (people : List Person) (t0 : TrackerState) (s0 : StagingState)
    (hids : people.Pairwise (fun a b => a.id ≠ b.id))
    (hdl : ∀ s q q2, (fetch q s).isDaily = true → (fetch q2 s).isDaily = true) :
    ((runResearch fetch true minScore sourceKeys people (initState t0 s0)).staging.rows
        : Multiset StagedRow)
      = ((runResearch fetch false minScore sourceKeys people (initState t0 s0)).staging.rows
        : Multiset StagedRow) := by
  have h := run_par_seq_staging fetch minScore sourceKeys hdl people
    (initState t0 s0) (initState t0 s0) hids rfl rfl (by intro s hs; simp [initState] at hs)
    (fun q _ s => rfl)
  rw [h]

/-- C9 witness: the amended theorem applied to a concrete roster and a
consistent oracle (s1 daily-limited for everyone, s2 returns a record
for everyone): parallel and sequential staging agree. -/
theorem parallel_sequential_equiv_witness :
    ((runResearch c9fetchConsistent true 80 ["s1", "s2"] [personA, personB]
        (initState ⟨[]⟩ ⟨[]⟩)).staging.rows : Multiset StagedRow)
      = ((runResearch c9fetchConsistent false 80 ["s1", "s2"] [personA, personB]
        (initState ⟨[]⟩ ⟨[]⟩)).staging.rows : Multiset StagedRow) :=
  parallel_sequential_equiv c9fetchConsistent 80 ["s1", "s2"] [personA, personB] ⟨[]⟩ ⟨[]⟩
    (by simp [personA, personB]) (fun s q q2 h => h)

end GenealogyExtractors
